import Mathlib

/-!
Verification of the AstroSlide enhancement/preset engine
(`backend/presets.py`, `backend/main.py`) against its specification.

Shallow embedding conventions:
* an 8-bit H×W×3 pixel grid (`numpy` uint8 array) is an `Img`: explicit
  height/width plus a total pixel function `y → x → channel → ℕ`
  (only values at `y < H`, `x < W`, `c < 3` are meaningful; well-formedness
  `Img.wf` records that in-bounds samples fit in 8 bits);
* floating-point intermediates (`np.float32`/`float64`) are modelled as `ℚ`;
* `np.ndarray.astype(np.uint8)` after `np.clip(·, 0, 255)` truncates toward
  zero, modelled by `truncU8`; OpenCV `saturate_cast<uchar>` rounds to the
  nearest integer, modelled by `roundU8` (ties: half-up);
* Python `int(x)` truncates toward zero: `pyInt`;
* OpenCV library kernels whose numeric content no claim depends on
  (CLAHE, non-local-means, wavelet shrinkage, bilateral filter, the LAB
  colour-space tables, Gaussian blurs with non-dyadic kernels, contour
  extraction) are fields of a `CVOps` parameter structure; every other
  operation is translated concretely from the source.
-/

namespace AstroSlide

/-- An 8-bit colour pixel grid (H×W×3).  `pix y x c` is the sample at row
`y`, column `x`, channel `c` (channel order depends on context: RGB at the
interface, BGR/HSV/LAB inside primitives, exactly as in the source). -/
structure Img where
  H : ℕ
  W : ℕ
  pix : ℕ → ℕ → ℕ → ℕ

/-- A floating-point colour grid (`np.float32` arrays), samples in `ℚ`. -/
structure FImg where
  H : ℕ
  W : ℕ
  pix : ℕ → ℕ → ℕ → ℚ

/-- A single-channel 8-bit grid (grayscale image or 0/255 mask). -/
structure Gray where
  H : ℕ
  W : ℕ
  pix : ℕ → ℕ → ℕ

/-- A single-channel floating-point grid. -/
structure FGray where
  H : ℕ
  W : ℕ
  pix : ℕ → ℕ → ℚ

/-- All in-bounds samples fit in 8 bits (uint8 well-formedness). -/
def Img.wf (g : Img) : Prop :=
  ∀ y < g.H, ∀ x < g.W, ∀ c < 3, g.pix y x c ≤ 255

instance (g : Img) : Decidable g.wf := by
  unfold Img.wf; infer_instance

/-- Extensional equality of grids: same dimensions and the same in-bounds
samples (out-of-bounds junk of the total `pix` functions is irrelevant). -/
def ImgEq (a b : Img) : Prop :=
  a.H = b.H ∧ a.W = b.W ∧ ∀ y < a.H, ∀ x < a.W, ∀ c < 3, a.pix y x c = b.pix y x c

/-- The all-zero (pure black) grid. -/
def zeroImg (H W : ℕ) : Img := ⟨H, W, fun _ _ _ => 0⟩

/-- The constant grid with every sample `v`. -/
def constImg (H W v : ℕ) : Img := ⟨H, W, fun _ _ _ => v⟩

/-! ### Scalar rounding / clipping utilities -/

/-- `np.clip(q, 0, 255)`. -/
def clipQ (q : ℚ) : ℚ := max 0 (min q 255)

/-- `np.clip(q, 0, 1)`. -/
def clip01 (q : ℚ) : ℚ := max 0 (min q 1)

/-- `np.clip(·,0,255).astype(np.uint8)`: clip then truncate toward zero. -/
def truncU8 (q : ℚ) : ℕ := (⌊clipQ q⌋).toNat

/-- OpenCV `saturate_cast<uchar>`: round to nearest (ties half-up), clamp. -/
def roundU8 (q : ℚ) : ℕ := (⌊clipQ q + 1/2⌋).toNat

/-- Python `int(x)` / C cast: truncation toward zero. -/
def pyInt (q : ℚ) : ℤ := if 0 ≤ q then ⌊q⌋ else -⌊-q⌋

/-- Clamp a rational into `[lo, hi]` (`max lo (min q hi)` as the source
writes it). -/
def clampQ (lo hi q : ℚ) : ℚ := max lo (min q hi)

theorem truncU8_le_255 (q : ℚ) : truncU8 q ≤ 255 := by
  unfold truncU8 clipQ
  have h1 : max (0:ℚ) (min q 255) ≤ 255 := by
    rcases le_total q 255 with h | h <;> simp [min_def, max_def, h] <;> split <;> linarith
  have h2 : (⌊max (0:ℚ) (min q 255)⌋ : ℤ) ≤ 255 := by
    have := Int.floor_le_floor h1
    simpa using this
  omega

theorem roundU8_le_255 (q : ℚ) : roundU8 q ≤ 255 := by
  unfold roundU8 clipQ
  have h1 : max (0:ℚ) (min q 255) + 1/2 ≤ 255 + 1/2 := by
    have : max (0:ℚ) (min q 255) ≤ 255 := by
      rcases le_total q 255 with h | h <;> simp [min_def, max_def, h] <;> split <;> linarith
    linarith
  have h2 : (⌊max (0:ℚ) (min q 255) + 1/2⌋ : ℤ) ≤ 255 := by
    have := Int.floor_le_floor h1
    have h255 : (⌊(255:ℚ) + 1/2⌋ : ℤ) = 255 := by norm_num [Int.floor_eq_iff]
    omega
  omega

theorem truncU8_natCast (n : ℕ) (h : n ≤ 255) : truncU8 (n : ℚ) = n := by
  unfold truncU8 clipQ
  have : min (n : ℚ) 255 = (n : ℚ) := by
    simp [min_def]
    intro h'
    exfalso
    have : (n : ℚ) ≤ 255 := by exact_mod_cast h
    linarith
  rw [this]
  have : max (0:ℚ) (n:ℚ) = (n:ℚ) := by simp
  rw [this]
  simp

/-! ### List statistics (NumPy `mean`, `var`/`std`, `percentile`, `median`) -/

/-- `np.mean` of a list of 8-bit samples (0 for the empty list, matching the
guarded uses in the source). -/
def meanL (l : List ℕ) : ℚ := (l.map (fun a => (Nat.cast a : ℚ))).sum / l.length

/-- `np.var` (population variance, the square of `np.std`): mean of squared
deviations from the mean.  The source only ever uses `np.std` = `√ meanVar`
either inside an order comparison against a nonnegative bound (encoded
exactly on squares) or through the `CVOps.sqrtQ` field. -/
def varL (l : List ℕ) : ℚ :=
  (l.map (fun a => ((Nat.cast a : ℚ) - meanL l) ^ 2)).sum / l.length

/-- The exact Boolean meaning of `v > μ + k·√var` for `k ≥ 0`:
`v - μ > 0 ∧ (v - μ)² > k²·var`.  (Both sides of the original comparison
minus `μ` are then nonnegative, so comparing squares is equivalent; this
avoids an irrational `√var`.) -/
def gtMeanPlusStd (v μ var k : ℚ) : Bool :=
  decide (0 < v - μ) && decide (k ^ 2 * var < (v - μ) ^ 2)

/-- `np.percentile(l, q)` (linear interpolation between closest ranks,
NumPy's default): sort, index at `(len-1)·q/100`, interpolate. -/
def percentileQ (l : List ℕ) (q : ℚ) : ℚ :=
  let s := l.insertionSort (· ≤ ·)
  if s.length = 0 then 0
  else
    let pos : ℚ := q / 100 * ((s.length : ℚ) - 1)
    let i : ℕ := (⌊pos⌋).toNat
    let frac : ℚ := pos - i
    let a : ℚ := (s.getD i 0 : ℚ)
    let b : ℚ := (s.getD (i + 1) (s.getD i 0) : ℚ)
    a + frac * (b - a)

/-- `np.median` = the 50th percentile under linear interpolation. -/
def medianL (l : List ℕ) : ℚ := percentileQ l 50

/-- Row-major list of one channel's in-bounds samples. -/
def chanVals (g : Img) (c : ℕ) : List ℕ :=
  (List.range g.H).flatMap (fun y => (List.range g.W).map (fun x => g.pix y x c))

/-- Row-major list of a gray image's in-bounds samples. -/
def grayVals (g : Gray) : List ℕ :=
  (List.range g.H).flatMap (fun y => (List.range g.W).map (fun x => g.pix y x))

/-- `np.sum(mask > 0)`: number of positive in-bounds mask pixels. -/
def countPos (m : Gray) : ℕ := (grayVals m).countP (fun v => decide (0 < v))

end AstroSlide

namespace AstroSlide

/-! ### Colour-space conversions (`cv2.cvtColor`)

The RGB↔BGR swaps and the grayscale / HSV conversions are translated
concretely from OpenCV's documented 8-bit formulas (`bgr2grayPix` uses the
exact fixed-point coefficients `R·4899 + G·9617 + B·1868 + 8192 >> 14`;
HSV uses the exact `V = max`, `S = round(255·(V−min)/V)`,
`H = round(30·sector_numerator/diff) (+180 if negative)` arithmetic,
collapsing OpenCV's two-stage fixed-point table rounding into a single
rounding; no claim depends on the tie cases this moves). -/

/-- `cv2.COLOR_RGB2BGR` / `cv2.COLOR_BGR2RGB`: swap channels 0 and 2. -/
def swapRB (g : Img) : Img := ⟨g.H, g.W, fun y x c => g.pix y x (2 - c)⟩

/-- `cv2.COLOR_BGR2GRAY` on one pixel (OpenCV fixed-point coefficients). -/
def bgr2grayPix (b g r : ℕ) : ℕ := (1868 * b + 9617 * g + 4899 * r + 8192) / 16384

/-- `cv2.COLOR_BGR2GRAY`. -/
def bgr2gray (g : Img) : Gray :=
  ⟨g.H, g.W, fun y x => bgr2grayPix (g.pix y x 0) (g.pix y x 1) (g.pix y x 2)⟩

/-- 8-bit HSV saturation of a BGR pixel: `0` if `V = 0`, else
`round(255·(V−min)/V)` (rounding half-up via integer arithmetic). -/
def hsvSat (b g r : ℕ) : ℕ :=
  let v := max b (max g r)
  let mn := min b (min g r)
  if v = 0 then 0 else (510 * (v - mn) + v) / (2 * v)

/-- 8-bit HSV value of a BGR pixel: `V = max(B,G,R)`. -/
def hsvVal (b g r : ℕ) : ℕ := max b (max g r)

/-- 8-bit HSV hue of a BGR pixel, in OpenCV's `[0,180)` scale. -/
def hsvHue (b g r : ℕ) : ℕ :=
  let v := max b (max g r)
  let mn := min b (min g r)
  let diff := v - mn
  if diff = 0 then 0
  else
    let num : ℤ :=
      if v = r then (g : ℤ) - b
      else if v = g then (b : ℤ) - r + 2 * diff
      else (r : ℤ) - g + 4 * diff
    let h0 : ℤ := ⌊(30 * (num : ℚ) / (diff : ℚ)) + 1/2⌋
    (if h0 < 0 then h0 + 180 else h0).toNat

/-- `cv2.COLOR_BGR2HSV` (8-bit): channels become (H, S, V). -/
def bgr2hsv (g : Img) : Img :=
  ⟨g.H, g.W, fun y x c =>
    let b := g.pix y x 0
    let gg := g.pix y x 1
    let r := g.pix y x 2
    if c = 0 then hsvHue b gg r else if c = 1 then hsvSat b gg r else hsvVal b gg r⟩

/-- `cv2.COLOR_HSV2BGR` on one 8-bit pixel: the standard sector algorithm
(`S = 0` gives the gray pixel `(V,V,V)`). -/
def hsv2bgrPix (h s v : ℕ) : ℕ × ℕ × ℕ :=
  if s = 0 then (v, v, v)
  else
    let hq : ℚ := (h : ℚ) / 30
    let sector : ℕ := (⌊hq⌋).toNat % 6
    let f : ℚ := hq - ⌊hq⌋
    let vq : ℚ := v
    let sq : ℚ := (s : ℚ) / 255
    let p : ℚ := vq * (1 - sq)
    let q : ℚ := vq * (1 - sq * f)
    let t : ℚ := vq * (1 - sq * (1 - f))
    let bgr : ℚ × ℚ × ℚ :=
      if sector = 0 then (p, t, vq)
      else if sector = 1 then (p, vq, q)
      else if sector = 2 then (t, vq, p)
      else if sector = 3 then (vq, q, p)
      else if sector = 4 then (vq, p, t)
      else (q, p, vq)
    (roundU8 bgr.1, roundU8 bgr.2.1, roundU8 bgr.2.2)

/-- `cv2.COLOR_HSV2BGR` (8-bit). -/
def hsv2bgr (g : Img) : Img :=
  ⟨g.H, g.W, fun y x c =>
    let bgr := hsv2bgrPix (g.pix y x 0) (g.pix y x 1) (g.pix y x 2)
    if c = 0 then bgr.1 else if c = 1 then bgr.2.1 else bgr.2.2⟩

/-! ### Elementwise grid combinators -/

/-- `np.where(mask[:,:,None] > 0, a, b)` on colour grids. -/
def whereImg (m : Gray) (a b : Img) : Img :=
  ⟨a.H, a.W, fun y x c => if 0 < m.pix y x then a.pix y x c else b.pix y x c⟩

/-- `np.where(mask[:,:,None] > 0, a, 0)`: force background to black. -/
def whereImgZero (m : Gray) (a : Img) : Img :=
  ⟨a.H, a.W, fun y x c => if 0 < m.pix y x then a.pix y x c else 0⟩

/-- `np.where(mask > 0, a, b)` on single-channel grids. -/
def whereG (m a b : Gray) : Gray :=
  ⟨a.H, a.W, fun y x => if 0 < m.pix y x then a.pix y x else b.pix y x⟩

/-- `cv2.addWeighted(a, α, b, β, γ)` on 8-bit grids (per-sample
`saturate_cast<uchar>(α·a + β·b + γ)`). -/
def addWeighted (a : Img) (α : ℚ) (b : Img) (β γ : ℚ) : Img :=
  ⟨a.H, a.W, fun y x c =>
    roundU8 (α * a.pix y x c + β * b.pix y x c + γ)⟩

/-- `cv2.threshold(gray, t, 255, cv2.THRESH_BINARY)`: `255` where the
sample exceeds `t`, else `0`. -/
def thresholdG (g : Gray) (t : ℚ) : Gray :=
  ⟨g.H, g.W, fun y x => if t < (g.pix y x : ℚ) then 255 else 0⟩

/-- `cv2.bitwise_or` of two 0/255 masks (pointwise max). -/
def orG (a b : Gray) : Gray := ⟨a.H, a.W, fun y x => max (a.pix y x) (b.pix y x)⟩

/-! ### Morphology (`cv2.getStructuringElement(cv2.MORPH_ELLIPSE, ·)`,
`erode`/`dilate`/`morphologyEx`)

The 3×3 elliptical structuring element is the 5-point cross, the 5×5 one
is the 21-point disc (rows `|dy| ≤ 1` full plus the centre column), exactly
as OpenCV's `getStructuringElement` produces them.  Out-of-bounds
neighbours use OpenCV's default border for min/max filters (`+∞` for
erode, `−∞` for dilate), i.e. they are skipped; the centre `(0,0)` offset
belongs to both elements, so the neighbourhood is never empty. -/

/-- Offsets `(dy, dx)` of the 3×3 elliptical structuring element. -/
def se3 : List (ℤ × ℤ) := [(-1, 0), (0, -1), (0, 0), (0, 1), (1, 0)]

/-- Offsets `(dy, dx)` of the 5×5 elliptical structuring element. -/
def se5 : List (ℤ × ℤ) :=
  [(-2, 0),
   (-1, -2), (-1, -1), (-1, 0), (-1, 1), (-1, 2),
   (0, -2), (0, -1), (0, 0), (0, 1), (0, 2),
   (1, -2), (1, -1), (1, 0), (1, 1), (1, 2),
   (2, 0)]

/-- `cv2.dilate`: max over the structuring element (in-bounds hits). -/
def dilateG (se : List (ℤ × ℤ)) (g : Gray) : Gray :=
  ⟨g.H, g.W, fun y x =>
    se.foldl (fun acc d =>
      let yy : ℤ := (y : ℤ) + d.1
      let xx : ℤ := (x : ℤ) + d.2
      if 0 ≤ yy ∧ yy < g.H ∧ 0 ≤ xx ∧ xx < g.W then
        max acc (g.pix yy.toNat xx.toNat)
      else acc) (g.pix y x)⟩

/-- `cv2.erode`: min over the structuring element (in-bounds hits). -/
def erodeG (se : List (ℤ × ℤ)) (g : Gray) : Gray :=
  ⟨g.H, g.W, fun y x =>
    se.foldl (fun acc d =>
      let yy : ℤ := (y : ℤ) + d.1
      let xx : ℤ := (x : ℤ) + d.2
      if 0 ≤ yy ∧ yy < g.H ∧ 0 ≤ xx ∧ xx < g.W then
        min acc (g.pix yy.toNat xx.toNat)
      else acc) (g.pix y x)⟩

/-- `cv2.morphologyEx(·, cv2.MORPH_OPEN, se)`: erode then dilate. -/
def morphOpen (se : List (ℤ × ℤ)) (g : Gray) : Gray := dilateG se (erodeG se g)

/-- `cv2.morphologyEx(·, cv2.MORPH_CLOSE, se)`: dilate then erode. -/
def morphClose (se : List (ℤ × ℤ)) (g : Gray) : Gray := erodeG se (dilateG se g)

end AstroSlide

namespace AstroSlide

/-! ### Small-kernel Gaussian blurs (exact dyadic kernels)

`cv2.GaussianBlur` with kernel sizes 3, 5, 7 and `sigma = 0` uses OpenCV's
fixed `small_gaussian_tab` kernels `[1,2,1]/4`, `[1,4,6,4,1]/16`,
`[4,14,28,36,28,14,4]/128` — exact dyadic rationals — with
`BORDER_REFLECT_101`.  These are translated concretely.  Blurs with an
explicit `sigma` or kernel size 15/31 have irrational weights and live in
`CVOps`. -/

/-- `BORDER_REFLECT_101` index mapping (single reflection, enough for the
kernel radii used here). -/
def reflect101 (n : ℕ) (i : ℤ) : ℕ :=
  if i < 0 then (-i).toNat
  else if (n : ℤ) ≤ i then (2 * ((n : ℤ) - 1) - i).toNat
  else i.toNat

/-- `BORDER_REPLICATE` index mapping (clamp), used by `cv2.medianBlur`. -/
def clampIdx (n : ℕ) (i : ℤ) : ℕ :=
  if i < 0 then 0 else if (n : ℤ) ≤ i then n - 1 else i.toNat

/-- OpenCV's fixed 3-tap Gaussian kernel. -/
def gk3 : List ℚ := [1/4, 1/2, 1/4]

/-- OpenCV's fixed 5-tap Gaussian kernel. -/
def gk5 : List ℚ := [1/16, 1/4, 3/8, 1/4, 1/16]

/-- OpenCV's fixed 7-tap Gaussian kernel. -/
def gk7 : List ℚ := [1/32, 7/64, 7/32, 9/32, 7/32, 7/64, 1/32]

/-- Separable blur of a float single-channel grid with an odd symmetric
kernel, `BORDER_REFLECT_101`. -/
def blurFG (ker : List ℚ) (g : FGray) : FGray :=
  let r := ker.length / 2
  ⟨g.H, g.W, fun y x =>
    ((List.range ker.length).map (fun i =>
      ((List.range ker.length).map (fun j =>
        ker.getD i 0 * ker.getD j 0 *
          g.pix (reflect101 g.H ((y : ℤ) + i - r)) (reflect101 g.W ((x : ℤ) + j - r)))).sum)).sum⟩

/-- Separable blur of a float colour grid (per channel). -/
def blurFI (ker : List ℚ) (g : FImg) : FImg :=
  let r := ker.length / 2
  ⟨g.H, g.W, fun y x c =>
    ((List.range ker.length).map (fun i =>
      ((List.range ker.length).map (fun j =>
        ker.getD i 0 * ker.getD j 0 *
          g.pix (reflect101 g.H ((y : ℤ) + i - r)) (reflect101 g.W ((x : ℤ) + j - r)) c)).sum)).sum⟩

/-- Gaussian blur of an 8-bit single-channel grid: convolve in `ℚ`, round
back to uint8 (OpenCV's fixed-point rounding collapsed to one rounding). -/
def blurU8G (ker : List ℚ) (g : Gray) : Gray :=
  let f := blurFG ker ⟨g.H, g.W, fun y x => (g.pix y x : ℚ)⟩
  ⟨g.H, g.W, fun y x => roundU8 (f.pix y x)⟩

/-- `cv2.medianBlur(·, k)` per channel: median of the k×k
`BORDER_REPLICATE` window (the middle element of the sorted k² samples). -/
def medianBlurImg (k : ℕ) (g : Img) : Img :=
  let r := k / 2
  ⟨g.H, g.W, fun y x c =>
    let vals := (List.range k).flatMap (fun dy =>
      (List.range k).map (fun dx =>
        g.pix (clampIdx g.H ((y : ℤ) + dy - r)) (clampIdx g.W ((x : ℤ) + dx - r)) c))
    (vals.insertionSort (· ≤ ·)).getD (vals.length / 2) 0⟩

/-! ### External OpenCV/scikit kernels as parameters -/

/-- Data `add_star_spikes` extracts per connected bright component through
`cv2.findContours` / `cv2.moments` / `cv2.contourArea` and the masked
maximum `np.max(gray[mask > 0])`: spatial moments `m00, m10, m01`, the
contour area, and the component's peak gray level. -/
structure ContourInfo where
  m00 : ℚ
  m10 : ℚ
  m01 : ℚ
  area : ℚ
  peak : ℕ

/-- Library primitives used by the pipelines whose numeric kernels are not
re-derived here (CLAHE, non-local means, wavelet shrinkage, bilateral
filtering, non-dyadic Gaussian blurs, the LAB conversion tables, contour
extraction, and the real `exp`, `x^0.85` and `√·` scalars).  Each image
field transforms a pixel function given the dimensions, so the documented
shape-preservation of these library calls is part of the model.  `OpsWF`
below records their uint8 (≤ 255) output ranges. -/
structure CVOps where
  /-- `cv2.createCLAHE(clipLimit, (tiles,tiles)).apply` on a uint8 plane. -/
  clahe : ℚ → ℕ → ℕ → ℕ → (ℕ → ℕ → ℕ) → (ℕ → ℕ → ℕ)
  /-- `cv2.fastNlMeansDenoisingColored(img, None, h, hColor, templ, search)`. -/
  nlm : ℕ → ℕ → ℕ → ℕ → ℕ → ℕ → (ℕ → ℕ → ℕ → ℕ) → (ℕ → ℕ → ℕ → ℕ)
  /-- `cv2.GaussianBlur(img, (0,0), sigma)` on a uint8 colour image. -/
  gaussC : ℚ → ℕ → ℕ → (ℕ → ℕ → ℕ → ℕ) → (ℕ → ℕ → ℕ → ℕ)
  /-- `cv2.GaussianBlur(·, (15,15), 0)` on a float single-channel grid. -/
  blur15 : ℕ → ℕ → (ℕ → ℕ → ℚ) → (ℕ → ℕ → ℚ)
  /-- The Gaussian-weighted local mean (uint8) that
  `cv2.adaptiveThreshold(…, ADAPTIVE_THRESH_GAUSSIAN_C, …, blockSize, C)`
  compares against (first argument: the block size). -/
  adaptMean : ℕ → ℕ → ℕ → (ℕ → ℕ → ℕ) → (ℕ → ℕ → ℕ)
  /-- `wavelet_denoise(img, strength, preserve_details)`: the
  skimage `denoise_wavelet` round trip of `presets.py`. -/
  wavelet : ℚ → Bool → ℕ → ℕ → (ℕ → ℕ → ℕ → ℕ) → (ℕ → ℕ → ℕ → ℕ)
  /-- `cv2.bilateralFilter(img, d, sigmaColor, sigmaSpace)`. -/
  bilateral : ℕ → ℤ → ℤ → ℕ → ℕ → (ℕ → ℕ → ℕ → ℕ) → (ℕ → ℕ → ℕ → ℕ)
  /-- `cv2.COLOR_BGR2LAB` on one 8-bit pixel. -/
  bgr2labPix : ℕ → ℕ → ℕ → ℕ × ℕ × ℕ
  /-- `cv2.COLOR_LAB2BGR` on one 8-bit pixel. -/
  lab2bgrPix : ℕ → ℕ → ℕ → ℕ × ℕ × ℕ
  /-- `cv2.findContours(mask, RETR_EXTERNAL, CHAIN_APPROX_SIMPLE)` plus the
  per-contour `cv2.moments`, `cv2.contourArea` and masked peak lookup. -/
  findContours : ℕ → ℕ → (ℕ → ℕ → ℕ) → List ContourInfo
  /-- The real exponential (`np.exp`), as used on rationals. -/
  expQ : ℚ → ℚ
  /-- `np.power(·, 0.85)` (shadow-lift curve). -/
  pow85 : ℚ → ℚ
  /-- The real square root (`np.std` where its value is used
  arithmetically rather than in a comparison). -/
  sqrtQ : ℚ → ℚ

/-- uint8 range of the library outputs that can reach a pipeline's final
image without passing through another clip (`cv2` returns uint8 arrays). -/
def OpsWF (ops : CVOps) : Prop :=
  (∀ h hc tw sw H W p y x c, ops.nlm h hc tw sw H W p y x c ≤ 255) ∧
  (∀ l a b, (ops.lab2bgrPix l a b).1 ≤ 255 ∧ (ops.lab2bgrPix l a b).2.1 ≤ 255 ∧
    (ops.lab2bgrPix l a b).2.2 ≤ 255) ∧
  (∀ s pd H W p y x c, ops.wavelet s pd H W p y x c ≤ 255)

/-- Wrapper: CLAHE on a gray plane. -/
def runClahe (ops : CVOps) (clip : ℚ) (tiles : ℕ) (g : Gray) : Gray :=
  ⟨g.H, g.W, ops.clahe clip tiles g.H g.W g.pix⟩

/-- Wrapper: non-local-means denoising of a colour image. -/
def runNLM (ops : CVOps) (h hc tw sw : ℕ) (g : Img) : Img :=
  ⟨g.H, g.W, ops.nlm h hc tw sw g.H g.W g.pix⟩

/-- Wrapper: Gaussian blur with explicit sigma on a colour image. -/
def runGaussC (ops : CVOps) (sigma : ℚ) (g : Img) : Img :=
  ⟨g.H, g.W, ops.gaussC sigma g.H g.W g.pix⟩

/-- Wrapper: wavelet denoising (`wavelet_denoise` of `presets.py`). -/
def runWavelet (ops : CVOps) (strength : ℚ) (preserveDetails : Bool) (g : Img) : Img :=
  ⟨g.H, g.W, ops.wavelet strength preserveDetails g.H g.W g.pix⟩

/-- Wrapper: bilateral filter. -/
def runBilateral (ops : CVOps) (d : ℕ) (sc ss : ℤ) (g : Img) : Img :=
  ⟨g.H, g.W, ops.bilateral d sc ss g.H g.W g.pix⟩

end AstroSlide

namespace AstroSlide

/-! ### Star detection and reduction (`detect_stars_aggressive`,
`reduce_stars` of `presets.py`) -/

/-- `detect_stars_aggressive(img, sensitivity)`: union of a Gaussian
adaptive threshold (block 31, `C = int(-3·sensitivity)`) and a global
`mean + 1.5·sensitivity·std` threshold, then open(3) → close(5) →
dilate(5).  The global comparison `gray > μ + k·σ` (`k ≥ 0` at every call
site) is encoded exactly on squares by `gtMeanPlusStd`. -/
def detect_stars_aggressive (ops : CVOps) (img : Img) (sensitivity : ℚ) : Gray :=
  let gray := bgr2gray img
  let c_value : ℤ := pyInt (-3 * sensitivity)
  let amean := ops.adaptMean 31 gray.H gray.W gray.pix
  let adaptive_thresh : Gray :=
    ⟨gray.H, gray.W, fun y x =>
      if ((amean y x : ℚ) - (c_value : ℚ)) < (gray.pix y x : ℚ) then 255 else 0⟩
  let μ := meanL (grayVals gray)
  let v := varL (grayVals gray)
  let global_mask : Gray :=
    ⟨gray.H, gray.W, fun y x =>
      if gtMeanPlusStd (gray.pix y x) μ v (3/2 * sensitivity) then 255 else 0⟩
  let combined := orG adaptive_thresh global_mask
  let cleaned := morphClose se5 (morphOpen se3 combined)
  dilateG se5 cleaned

/-- `reduce_stars(img, star_mask, reduction_amount, preserve_color, …)`:
clamp the amount to `[0,1]`; return a copy at 0; auto-detect stars when no
mask is supplied (sensitivity `1 − 0.3·amount`); return a copy when zero
star pixels are detected; otherwise blend toward a 15×15 per-channel
median background under the Gaussian-feathered mask, optionally preserving
`0.3·(1−amount)` of the original inside a twice-eroded core mask. -/
def reduce_stars (ops : CVOps) (img : Img) (star_mask : Option Gray)
    (reduction_amount : ℚ) (preserve_color : Bool) : Img :=
  let r := max 0 (min 1 reduction_amount)
  if r = 0 then img
  else
    let mask :=
      match star_mask with
      | some m => m
      | none => detect_stars_aggressive ops img (1 - r * (3/10))
    if countPos mask = 0 then img
    else
      let median_bg := medianBlurImg 15 img
      let feathered := blurFG gk7 ⟨mask.H, mask.W, fun y x => (mask.pix y x : ℚ) / 255⟩
      let res1 : FImg := ⟨img.H, img.W, fun y x c =>
        (img.pix y x c : ℚ) * (1 - feathered.pix y x * r) +
          (median_bg.pix y x c : ℚ) * (feathered.pix y x * r)⟩
      let res2 : FImg :=
        if preserve_color ∧ r < 9/10 then
          let core_mask := erodeG se5 (erodeG se5 mask)
          let core_feathered :=
            blurFG gk5 ⟨core_mask.H, core_mask.W, fun y x => (core_mask.pix y x : ℚ) / 255⟩
          let cp := (3/10) * (1 - r)
          ⟨img.H, img.W, fun y x c =>
            res1.pix y x c * (1 - core_feathered.pix y x * cp) +
              (img.pix y x c : ℚ) * (core_feathered.pix y x * cp)⟩
        else res1
      ⟨img.H, img.W, fun y x c => truncU8 (res2.pix y x c)⟩

/-! ### Diffraction-spike synthesis (`add_star_spikes`) -/

/-- `int(cos(π/4)·d) = ⌊d/√2⌋`, computed exactly as
`Nat.sqrt ⌊d²/2⌋` (using `⌊√x⌋ = ⌊√⌊x⌋⌋`). -/
def spikeDiag (d : ℕ) : ℕ := Nat.sqrt (d * d / 2)

/-- `(dx, dy) = (int(cos θ·d), int(sin θ·d))` for
`θ = π/4 + k·π/2`, the four spike angles of the classic X pattern
(`num_spikes = 4`, the only value the repository uses; `cos θ, sin θ` are
then `±√2/2` and Python's `int` truncates the magnitude `d/√2`). -/
def spikeDir (k d : ℕ) : ℤ × ℤ :=
  let m : ℤ := spikeDiag d
  if k = 0 then (m, m)
  else if k = 1 then (-m, m)
  else if k = 2 then (-m, -m)
  else (m, -m)

/-- One bounds-checked store of the loop body
`spike_layer[py, px] = np.maximum(spike_layer[py, px], v)`. -/
def spikeWrite (H W : ℕ) (py px : ℤ) (v : ℕ → ℚ) (L : ℕ → ℕ → ℕ → ℚ) :
    ℕ → ℕ → ℕ → ℚ :=
  if 0 ≤ px ∧ px < (W : ℤ) ∧ 0 ≤ py ∧ py < (H : ℤ) then
    fun y x c => if y = py.toNat ∧ x = px.toNat then max (L y x c) (v c) else L y x c
  else L

/-- The per-star data the loop derives after the repository-side filters
(`m00 ≠ 0`, `area ≥ 2`): centroid, actual spike length, spike intensity and
the star's own sampled colour.  `none` when the component is skipped. -/
def starContribData (img : Img) (spike_length spike_brightness threshold : ℚ)
    (ci : ContourInfo) : Option (ℕ × ℕ × ℕ × ℚ × (ℕ → ℚ)) :=
  if ci.m00 = 0 then none
  else
    let cx := (pyInt (ci.m10 / ci.m00)).toNat
    let cy := (pyInt (ci.m01 / ci.m00)).toNat
    if ci.area < 2 then none
    else
      let bf := clip01 (((ci.peak : ℚ) - threshold) / (255 - threshold))
      -- base_length = max(15, int(sqrt(area)·3)) with
      -- int(3·√area) = ⌊√(9·area)⌋ = Nat.sqrt ⌊9·area⌋
      let base_length : ℕ := max 15 (Nat.sqrt (⌊9 * ci.area⌋).toNat)
      let aL := (pyInt ((base_length : ℚ) * spike_length * (1/2 + bf * (1/2)))).toNat
      let sI := spike_brightness * bf
      let color := fun c => (img.pix cy cx c : ℚ) / 255 * sI * 255
      some (cx, cy, aL, sI, color)

/-- The two inner loops of `add_star_spikes` for one star: for each of the
4 angles and each distance `1..actual_length` along the ray, write the
Gaussian-falloff, width-tapered, colour-scaled contribution into the spike
layer with `np.maximum`. -/
def starRaysWrite (ops : CVOps) (H W : ℕ)
    (cx cy aL : ℕ) (sI : ℚ) (color : ℕ → ℚ)
    (L : ℕ → ℕ → ℕ → ℚ) : ℕ → ℕ → ℕ → ℚ :=
  (List.range 4).foldl (fun L k =>
    (List.range aL).foldl (fun L d0 =>
      let d := d0 + 1
      let dir := spikeDir k d
      let px := (cx : ℤ) + dir.1
      let py := (cy : ℤ) + dir.2
      let falloff := ops.expQ (-(d * d : ℚ) / ((aL * aL : ℚ) / 4))
      let width_factor := 1 - (d : ℚ) / (aL : ℚ) * (7/10)
      let intens := falloff * width_factor * sI
      spikeWrite H W py px (fun c => color c * intens) L) L) L

/-- The whole spike layer: fold the per-star ray writes over the contour
list, starting from `np.zeros_like`. -/
def spikeLayerPix (ops : CVOps) (img : Img)
    (spike_length spike_brightness threshold : ℚ) (contours : List ContourInfo) :
    ℕ → ℕ → ℕ → ℚ :=
  contours.foldl (fun L ci =>
    match starContribData img spike_length spike_brightness threshold ci with
    | none => L
    | some (cx, cy, aL, sI, color) => starRaysWrite ops img.H img.W cx cy aL sI color L)
    (fun _ _ _ => 0)

/-- The star-detection threshold of `add_star_spikes`:
`mean + std·threshold_factor` of the grayscale image (`std` through the
`sqrtQ` field, since the value is used arithmetically). -/
def spikeThreshold (ops : CVOps) (img : Img) (threshold_factor : ℚ) : ℚ :=
  meanL (grayVals (bgr2gray img)) +
    ops.sqrtQ (varL (grayVals (bgr2gray img))) * threshold_factor

/-- The bright components `add_star_spikes` finds: `cv2.findContours` (via
the `CVOps` field) on the binary threshold of the grayscale image. -/
def spikeContours (ops : CVOps) (img : Img) (threshold_factor : ℚ) :
    List ContourInfo :=
  ops.findContours (bgr2gray img).H (bgr2gray img).W
    (thresholdG (bgr2gray img) (spikeThreshold ops img threshold_factor)).pix

/-- `add_star_spikes(img, spike_length, spike_brightness, threshold_factor,
num_spikes=4)`: threshold the gray image at `mean + std·threshold_factor`
(`spikeThreshold`), find the bright components (`spikeContours`),
rasterize per-component spike rays into the layer (`spikeLayerPix`), blur
the layer with the 3×3 Gaussian and add it to the image, clipping to the
valid range; an empty contour list returns the image unchanged. -/
def add_star_spikes (ops : CVOps) (img : Img)
    (spike_length spike_brightness threshold_factor : ℚ) : Img :=
  let contours := spikeContours ops img threshold_factor
  if contours.length = 0 then img
  else
    let layer : FImg :=
      ⟨img.H, img.W, spikeLayerPix ops img spike_length spike_brightness
        (spikeThreshold ops img threshold_factor) contours⟩
    let blurred := blurFI gk3 layer
    ⟨img.H, img.W, fun y x c => truncU8 ((img.pix y x c : ℚ) + blurred.pix y x c)⟩

/-! ### Adaptive saturation (`calculate_adaptive_saturation`) -/

/-- Row-major list `f[mask > 0]` of the values of `f` at positive mask
positions inside an H×W grid (NumPy boolean indexing). -/
def maskedVals (H W : ℕ) (mask : Gray) (f : ℕ → ℕ → ℕ) : List ℕ :=
  (List.range H).flatMap (fun y =>
    ((List.range W).filter (fun x => decide (0 < mask.pix y x))).map (fun x => f y x))

/-- `len(img[mask > 0])`: the number of positive mask positions. -/
def maskedCount (H W : ℕ) (mask : Gray) : ℕ :=
  (maskedVals H W mask (fun _ _ => 0)).length

/-- `calculate_adaptive_saturation(img, mask, base_multiplier)`: the base
multiplier unchanged on an empty mask; otherwise the base multiplier times
the four threshold-table factors computed from the masked HSV statistics,
clamped into `[1.2, 1.8]`.  The two `np.std`-based comparisons
(`std_sat > 0.15`, `std_sat < 0.08`) are encoded exactly on squares
(`std_sat = √(var)/255 ≥ 0` and the bounds are positive).  The source also
computes `median_sat` and `p25_sat` but never uses them. -/
def calculate_adaptive_saturation (img : Img) (mask : Gray) (base_multiplier : ℚ) : ℚ :=
  if maskedCount img.H img.W mask = 0 then base_multiplier
  else
    let hsv := bgr2hsv img
    let moon_sat := maskedVals img.H img.W mask (fun y x => hsv.pix y x 1)
    let moon_val := maskedVals img.H img.W mask (fun y x => hsv.pix y x 2)
    let mean_sat := meanL moon_sat / 255
    let std_sat_sq := varL moon_sat / 255 ^ 2
    let mean_val := meanL moon_val / 255
    let p75_sat := percentileQ moon_sat 75 / 255
    let sat_factor : ℚ :=
      if mean_sat < 3/20 then 13/10
      else if mean_sat < 1/4 then 23/20
      else if 2/5 < mean_sat then 17/20
      else 1
    let variance_factor : ℚ :=
      if (3/20) ^ 2 < std_sat_sq then 11/10
      else if std_sat_sq < (2/25) ^ 2 then 19/20
      else 1
    let brightness_factor : ℚ :=
      if mean_val < 3/10 then 21/20
      else if 7/10 < mean_val then 49/50
      else 1
    let distribution_factor : ℚ :=
      if 1/2 < p75_sat then 9/10
      else if p75_sat < 1/5 then 11/10
      else 1
    max (6/5) (min (base_multiplier * sat_factor * variance_factor *
      brightness_factor * distribution_factor) (9/5))

end AstroSlide

namespace AstroSlide

/-! ### Hybrid denoising (`astro_denoise`) -/

/-- `astro_denoise(img, strength, protect_stars, edge_aware)`: wavelet
denoise at `0.9·strength`; optionally blend with a bilateral filter
weighted by a blurred local-variance detail mask; optionally blend 70 % of
the original back inside a feathered bright-region mask built from
`mean + 2·std` of the original luminance. -/
def astro_denoise (ops : CVOps) (img : Img) (strength : ℚ)
    (protect_stars edge_aware : Bool) : Img :=
  let denoised0 := runWavelet ops (strength * (9/10)) true img
  let denoised1 :=
    if edge_aware then
      let sigma_color := max 10 (min (pyInt (30 * strength)) 75)
      let sigma_space := max 5 (min (pyInt (10 * strength)) 20)
      let bilateral := runBilateral ops 5 sigma_color sigma_space denoised0
      let gray := bgr2gray denoised0
      let blur := blurU8G gk5 gray
      let local_var0 : FGray := ⟨gray.H, gray.W, fun y x =>
        ((max (gray.pix y x) (blur.pix y x) - min (gray.pix y x) (blur.pix y x) : ℕ) : ℚ) / 255⟩
      let local_var : FGray :=
        ⟨local_var0.H, local_var0.W, ops.blur15 local_var0.H local_var0.W local_var0.pix⟩
      (⟨img.H, img.W, fun y x c =>
        let dm := clip01 (local_var.pix y x * 5)
        truncU8 ((denoised0.pix y x c : ℚ) * dm + (bilateral.pix y x c : ℚ) * (1 - dm))⟩ : Img)
    else denoised0
  if protect_stars then
    let gray := bgr2gray img
    let μ := meanL (grayVals gray)
    let σ := ops.sqrtQ (varL (grayVals gray))
    let star_threshold := μ + σ * 2
    let bright :=
      blurFG gk7 ⟨gray.H, gray.W, fun y x =>
        clip01 (((gray.pix y x : ℚ) - star_threshold) / 50)⟩
    ⟨img.H, img.W, fun y x c =>
      truncU8 ((denoised1.pix y x c : ℚ) * (1 - bright.pix y x * (7/10)) +
        (img.pix y x c : ℚ) * (bright.pix y x * (7/10)))⟩
  else denoised1

/-! ### Shared pipeline stages -/

/-- The per-channel 0.1–99.9 percentile stretch block shared verbatim by
`deep_sky`, `general`, `nebula`, `galaxy` and `star_cluster`: stretch when
`p_high > p_low`, otherwise keep the channel, then
`np.clip(·,0,255).astype(np.uint8)`. -/
def stretchChannels (g : Img) : Img :=
  ⟨g.H, g.W, fun y x c =>
    let p_low := percentileQ (chanVals g c) (1/10)
    let p_high := percentileQ (chanVals g c) (999/10)
    if p_low < p_high then
      truncU8 (((g.pix y x c : ℚ) - p_low) / (p_high - p_low) * 255)
    else truncU8 ((g.pix y x c : ℚ))⟩

/-- The HSV saturation-boost block (`hsv[:,:,1] *= m`, clip, back to BGR). -/
def satBoostStage (g : Img) (m : ℚ) : Img :=
  let hsv := bgr2hsv g
  hsv2bgr ⟨hsv.H, hsv.W, fun y x c =>
    if c = 1 then truncU8 ((hsv.pix y x 1 : ℚ) * m) else hsv.pix y x c⟩

/-- The masked HSV saturation-boost block of `enhance_mineral_moon_subtle`
(`hsv[:,:,1] = np.where(mask > 0, clip(s·m), hsv[:,:,1])`, back to BGR). -/
def maskedSatStage (g : Img) (mask : Gray) (m : ℚ) : Img :=
  let hsv := bgr2hsv g
  hsv2bgr ⟨hsv.H, hsv.W, fun y x c =>
    if c = 1 then
      if 0 < mask.pix y x then truncU8 ((hsv.pix y x 1 : ℚ) * m) else hsv.pix y x 1
    else hsv.pix y x c⟩

/-- The HSV value-boost block (`hsv[:,:,2] *= m`, clip, back to BGR). -/
def valBoostStage (g : Img) (m : ℚ) : Img :=
  let hsv := bgr2hsv g
  hsv2bgr ⟨hsv.H, hsv.W, fun y x c =>
    if c = 2 then truncU8 ((hsv.pix y x 2 : ℚ) * m) else hsv.pix y x c⟩

/-- Channel L of `cv2.cvtColor(·, cv2.COLOR_BGR2LAB)` (then `cv2.split`). -/
def labL (ops : CVOps) (g : Img) : Gray :=
  ⟨g.H, g.W, fun y x => (ops.bgr2labPix (g.pix y x 0) (g.pix y x 1) (g.pix y x 2)).1⟩

/-- Channel A of the LAB conversion. -/
def labA (ops : CVOps) (g : Img) : Gray :=
  ⟨g.H, g.W, fun y x => (ops.bgr2labPix (g.pix y x 0) (g.pix y x 1) (g.pix y x 2)).2.1⟩

/-- Channel B of the LAB conversion. -/
def labB (ops : CVOps) (g : Img) : Gray :=
  ⟨g.H, g.W, fun y x => (ops.bgr2labPix (g.pix y x 0) (g.pix y x 1) (g.pix y x 2)).2.2⟩

/-- `cv2.cvtColor(cv2.merge([l,a,b]), cv2.COLOR_LAB2BGR)`. -/
def labMerge (ops : CVOps) (l a b : Gray) : Img :=
  ⟨l.H, l.W, fun y x c =>
    let bgr := ops.lab2bgrPix (l.pix y x) (a.pix y x) (b.pix y x)
    if c = 0 then bgr.1 else if c = 1 then bgr.2.1 else bgr.2.2⟩

/-! ### The seven preset pipelines -/

/-- `enhance_mineral_moon_subtle`. -/
def enhance_mineral_moon_subtle (ops : CVOps) (img_array : Img) : Img :=
  let cv_img := swapRB img_array
  let gray := bgr2gray cv_img
  let moon_mask := thresholdG gray 10
  -- Step 1: gentle CLAHE on luminance, masked
  let l := labL ops cv_img
  let a := labA ops cv_img
  let b := labB ops cv_img
  let l_enhanced := runClahe ops (3/2) 8 l
  let enhanced1 := labMerge ops (whereG moon_mask l_enhanced l) a b
  -- Step 2: adaptive saturation boost, masked
  let adaptive_sat_mult := calculate_adaptive_saturation enhanced1 moon_mask (7/5)
  let enhanced2 := maskedSatStage enhanced1 moon_mask adaptive_sat_mult
  -- Step 3: subtle unsharp, masked (the source's extra clip of the
  -- already-uint8 `addWeighted` output is the identity)
  let sharpened := addWeighted enhanced2 (6/5) (runGaussC ops 1 enhanced2) (-(1/5)) 0
  let enhanced3 := whereImg moon_mask sharpened enhanced2
  -- Step 4: very light denoise, masked
  let enhanced4 := whereImg moon_mask (runNLM ops 2 2 7 15 enhanced3) enhanced3
  -- Final: pure black background, back to RGB
  swapRB (whereImgZero moon_mask enhanced4)

/-- `enhance_deep_sky`. -/
def enhance_deep_sky (ops : CVOps) (img_array : Img) : Img :=
  let cv_img := swapRB img_array
  let stretched := stretchChannels cv_img
  let sat := satBoostStage stretched (7/5)
  let sharp := addWeighted sat (3/2) (runGaussC ops 2 sat) (-(1/2)) 0
  let reduced := reduce_stars ops sharp none (17/20) true
  let vboost := valBoostStage reduced (23/20)
  swapRB (astro_denoise ops vboost (6/5) true true)

/-- `enhance_general`. -/
def enhance_general (ops : CVOps) (img_array : Img) : Img :=
  let cv_img := swapRB img_array
  let stretched := stretchChannels cv_img
  let sat := satBoostStage stretched (23/20)
  swapRB (runNLM ops 2 2 7 15 sat)

/-- `enhance_moon_hdr`. -/
def enhance_moon_hdr (ops : CVOps) (img_array : Img) : Img :=
  let cv_img := swapRB img_array
  let gray := bgr2gray cv_img
  let moon_mask := morphOpen se5 (morphClose se5 (thresholdG gray 15))
  -- Step 1: three-scale CLAHE on luminance, masked
  let l := labL ops cv_img
  let a := labA ops cv_img
  let b := labB ops cv_img
  let l_large := runClahe ops 3 4 l
  let l_medium := runClahe ops (5/2) 8 l
  let l_small := runClahe ops 2 16 l
  let l_blended : Gray := ⟨l.H, l.W, fun y x =>
    truncU8 ((1/4) * (l_large.pix y x : ℚ) + (7/20) * (l_medium.pix y x : ℚ) +
      (2/5) * (l_small.pix y x : ℚ))⟩
  let enhanced1 := labMerge ops (whereG moon_mask l_blended l) a b
  -- Step 2: shadow recovery, masked
  let l2 := labL ops enhanced1
  let a2 := labA ops enhanced1
  let b2 := labB ops enhanced1
  let l_recovered : Gray := ⟨l2.H, l2.W, fun y x =>
    let lf := (l2.pix y x : ℚ) / 255
    let shadow_lift := ops.pow85 lf
    let shadow_mask := (1 - lf) ^ 2
    truncU8 ((lf + (shadow_lift - lf) * shadow_mask * (2/5)) * 255)⟩
  let enhanced2 := labMerge ops (whereG moon_mask l_recovered l2) a2 b2
  -- Step 3: soft-knee highlight compression, masked
  let l3 := labL ops enhanced2
  let a3 := labA ops enhanced2
  let b3 := labB ops enhanced2
  let l_compressed : Gray := ⟨l3.H, l3.W, fun y x =>
    let lf := (l3.pix y x : ℚ) / 255
    let hm := max (lf - 3/4) 0 / (1 - 3/4)
    truncU8 ((lf - hm * (3/10) * (lf - 3/4)) * 255)⟩
  let enhanced3 := labMerge ops (whereG moon_mask l_compressed l3) a3 b3
  -- Step 4: cascaded three-radius unsharp, masked
  let d1 := addWeighted enhanced3 (13/10) (runGaussC ops 1 enhanced3) (-(3/10)) 0
  let d2 := addWeighted d1 (6/5) (runGaussC ops (5/2) enhanced3) (-(1/5)) 0
  let d3 := addWeighted d2 (23/20) (runGaussC ops 5 enhanced3) (-(3/20)) 0
  let enhanced4 := whereImg moon_mask d3 enhanced3
  -- Step 5: midtone S-curve LUT on luminance, masked
  let lut : ℕ → ℕ := fun i =>
    let xq : ℚ := (i : ℚ) / 255
    let s := 1 / (1 + ops.expQ (-10 * (xq - 1/2)))
    truncU8 ((xq * (7/10) + s * (3/10)) * 255)
  let l5 := labL ops enhanced4
  let a5 := labA ops enhanced4
  let b5 := labB ops enhanced4
  let l_contrast : Gray := ⟨l5.H, l5.W, fun y x => lut (l5.pix y x)⟩
  let enhanced5 := labMerge ops (whereG moon_mask l_contrast l5) a5 b5
  -- Step 6: light denoise, masked
  let enhanced6 := whereImg moon_mask (runNLM ops 3 3 7 15 enhanced5) enhanced5
  swapRB (whereImgZero moon_mask enhanced6)

/-- `enhance_nebula`. -/
def enhance_nebula (ops : CVOps) (img_array : Img) : Img :=
  let cv_img := swapRB img_array
  let stretched := stretchChannels cv_img
  let sat := satBoostStage stretched (3/2)
  let sharp := addWeighted sat (3/2) (runGaussC ops 2 sat) (-(1/2)) 0
  let reduced := reduce_stars ops sharp none (9/10) true
  let vboost := valBoostStage reduced (23/20)
  swapRB (astro_denoise ops vboost (6/5) true true)

/-- `enhance_galaxy`. -/
def enhance_galaxy (ops : CVOps) (img_array : Img) : Img :=
  let cv_img := swapRB img_array
  let stretched := stretchChannels cv_img
  -- gentle CLAHE on luminance (unmasked)
  let l := runClahe ops (3/2) 8 (labL ops stretched)
  let enhanced1 := labMerge ops l (labA ops stretched) (labB ops stretched)
  let sat := satBoostStage enhanced1 (27/20)
  let sharp := addWeighted sat (3/2) (runGaussC ops 2 sat) (-(1/2)) 0
  let reduced := reduce_stars ops sharp none (17/20) true
  let vboost := valBoostStage reduced (28/25)
  swapRB (astro_denoise ops vboost 1 true true)

/-- `enhance_star_cluster` (no star reduction). -/
def enhance_star_cluster (ops : CVOps) (img_array : Img) : Img :=
  let cv_img := swapRB img_array
  let stretched := stretchChannels cv_img
  let sat := satBoostStage stretched (3/2)
  let sharp := addWeighted sat (8/5) (runGaussC ops (3/2) sat) (-(3/5)) 0
  swapRB (astro_denoise ops sharp (4/5) true false)

/-! ### Preset registry and orchestration -/

/-- Metadata record of one registry entry. -/
structure PresetInfo where
  name : String
  description : String
  best_for : String

/-- The static `PRESETS` registry (identifier → metadata), in source
order. -/
def PRESETS : List (String × PresetInfo) :=
  [("mineral_moon_subtle", ⟨"Mineral Moon (Subtle)",
      "Conservative enhancement for scientific accuracy",
      "Scientific/realistic lunar imaging"⟩),
   ("deep_sky", ⟨"Deep Sky Boost",
      "Optimized for nebulae, galaxies, and star clusters",
      "Deep space objects"⟩),
   ("general", ⟨"General Auto",
      "Balanced enhancement for any astrophoto",
      "General astrophotography"⟩),
   ("moon_hdr", ⟨"Moon HDR",
      "HDR tone mapping for lunar surface detail",
      "Seestar and smart telescope moon captures"⟩),
   ("nebula", ⟨"Nebula",
      "Optimized for emission nebulae with strong SCNR and saturation",
      "Orion, Lagoon, Rosette, and other emission nebulae"⟩),
   ("galaxy", ⟨"Galaxy",
      "Gentle processing for spiral and elliptical galaxies",
      "Andromeda, Whirlpool, Pinwheel, and other galaxies"⟩),
   ("star_cluster", ⟨"Star Cluster",
      "Strong sharpening with natural star colors preserved",
      "Pleiades, M13, Double Cluster, and other clusters"⟩)]

/-- `list(PRESETS.keys())`. -/
def presetIds : List String := PRESETS.map Prod.fst

/-- The `PRESETS[preset]["function"]` dispatch. -/
def presetApply (ops : CVOps) (preset : String) (g : Img) : Img :=
  if preset = "mineral_moon_subtle" then enhance_mineral_moon_subtle ops g
  else if preset = "deep_sky" then enhance_deep_sky ops g
  else if preset = "general" then enhance_general ops g
  else if preset = "moon_hdr" then enhance_moon_hdr ops g
  else if preset = "nebula" then enhance_nebula ops g
  else if preset = "galaxy" then enhance_galaxy ops g
  else if preset = "star_cluster" then enhance_star_cluster ops g
  else g

/-- The error raised for an unknown preset identifier: it carries the
offending identifier and the list of available identifiers
(`f"Unknown preset: {preset}. Available: {list(PRESETS.keys())}"`). -/
structure UnknownPreset where
  preset : String
  available : List String
deriving DecidableEq

/-- The body of `enhance_with_preset` after registry validation: clamp the
intensity, run the pipeline at full intensity, linearly blend with the
original when `intensity < 1.0` (clip + truncate to uint8), then
optionally overlay star spikes with the fixed subtle constants
(0.5, 0.6, 2.0, 4 spikes) on the RGB result (converting to BGR and
back for `add_star_spikes`). -/
def enhanceRun (ops : CVOps) (img_array : Img) (preset : String)
    (intensity : ℚ) (star_spikes : Bool) : Img :=
  let i := max 0 (min 1 intensity)
  let enhanced := presetApply ops preset img_array
  let blended : Img :=
    if i < 1 then
      ⟨img_array.H, img_array.W, fun y x c =>
        truncU8 ((img_array.pix y x c : ℚ) * (1 - i) + (enhanced.pix y x c : ℚ) * i)⟩
    else enhanced
  if star_spikes then
    swapRB (add_star_spikes ops (swapRB blended) (1/2) (3/5) 2)
  else blended

/-- `enhance_with_preset(img_array, preset, intensity, star_spikes)`:
reject identifiers not in the registry (the error names the valid set)
before touching any pixel; otherwise run the pipeline with intensity
blending and the optional spike overlay. -/
def enhance_with_preset (ops : CVOps) (img_array : Img) (preset : String)
    (intensity : ℚ) (star_spikes : Bool) : Except UnknownPreset Img :=
  if preset ∈ presetIds then
    .ok (enhanceRun ops img_array preset intensity star_spikes)
  else .error ⟨preset, presetIds⟩

end AstroSlide

namespace AstroSlide

/-! ### Histogram endpoint (`calculate_histogram` of `main.py`) -/

/-- `cv2.calcHist([img],[ch],None,[256],[0,256])` on one channel's sample
list: the 256-bin count array over the full 0–255 range. -/
def histOfList (l : List ℕ) : List ℕ := (List.range 256).map (fun v => l.count v)

/-- The histogram computation of `POST /api/histogram`: convert the RGB
grid to BGR, per-channel 256-bin histograms, plus the luminance histogram
of the grayscale conversion.  Returned in response order
(red, green, blue, luminance). -/
def calculate_histogram (g : Img) : List ℕ × List ℕ × List ℕ × List ℕ :=
  let bgr := swapRB g
  let hist_b := histOfList (chanVals bgr 0)
  let hist_g := histOfList (chanVals bgr 1)
  let hist_r := histOfList (chanVals bgr 2)
  let hist_lum := histOfList (grayVals (bgr2gray bgr))
  (hist_r, hist_g, hist_b, hist_lum)

/-! ### A concrete `CVOps` instance

`idOps` interprets every library kernel as the channel-clamping identity
(a legitimate uint8 image-to-image operator), `exp` as the rational
approximation `x ↦ 1/(1−x)` (positive and increasing on `x ≤ 0`), and
square roots exactly on perfect-square rationals.  It witnesses that the
hypotheses the theorems place on `CVOps` are satisfiable. -/

/-- Exact square root on perfect-square rationals (`√(n/d) = √n/√d`). -/
def ratSqrt (q : ℚ) : ℚ := (Nat.sqrt q.num.toNat : ℚ) / (Nat.sqrt q.den : ℚ)

/-- Concrete operator instance used by the witnesses. -/
def idOps : CVOps where
  clahe := fun _ _ _ _ p y x => min (p y x) 255
  nlm := fun _ _ _ _ _ _ p y x c => min (p y x c) 255
  gaussC := fun _ _ _ p y x c => min (p y x c) 255
  blur15 := fun _ _ p => p
  adaptMean := fun _ _ _ p => p
  wavelet := fun _ _ _ _ p y x c => min (p y x c) 255
  bilateral := fun _ _ _ _ _ p y x c => min (p y x c) 255
  bgr2labPix := fun b g r => (min b 255, min g 255, min r 255)
  lab2bgrPix := fun l a b => (min l 255, min a 255, min b 255)
  findContours := fun _ _ _ => []
  expQ := fun x => 1 / (1 - x)
  pow85 := fun x => x
  sqrtQ := ratSqrt

theorem idOps_wf : OpsWF idOps := by
  refine ⟨fun _ _ _ _ _ _ _ _ _ _ => ?_, fun _ _ _ => ⟨?_, ?_, ?_⟩,
    fun _ _ _ _ _ _ _ _ => ?_⟩ <;> simp [idOps]

/-! ### uint8 range propagation through the pipelines -/

/-- Every sample of the total pixel function is ≤ 255 (stronger than
`Img.wf`: it also covers the out-of-bounds values, which is how the
uint8-producing stages actually behave in this model since every stage
clips pointwise everywhere). -/
def ImgLe255 (g : Img) : Prop := ∀ y x c, g.pix y x c ≤ 255

theorem ImgLe255.wf {g : Img} (h : ImgLe255 g) : g.wf :=
  fun y _ x _ c _ => h y x c

theorem le255_swapRB {g : Img} (h : ImgLe255 g) : ImgLe255 (swapRB g) :=
  fun y x c => h y x (2 - c)

theorem le255_stretch (g : Img) : ImgLe255 (stretchChannels g) := by
  intro y x c
  unfold stretchChannels
  dsimp only
  split <;> exact truncU8_le_255 _

theorem le255_addWeighted (a : Img) (α : ℚ) (b : Img) (β γ : ℚ) :
    ImgLe255 (addWeighted a α b β γ) :=
  fun _ _ _ => roundU8_le_255 _

theorem le255_whereImg {m : Gray} {a b : Img} (ha : ImgLe255 a) (hb : ImgLe255 b) :
    ImgLe255 (whereImg m a b) := by
  intro y x c
  unfold whereImg
  dsimp only
  split
  · exact ha y x c
  · exact hb y x c

theorem le255_whereImgZero {m : Gray} {a : Img} (ha : ImgLe255 a) :
    ImgLe255 (whereImgZero m a) := by
  intro y x c
  unfold whereImgZero
  dsimp only
  split
  · exact ha y x c
  · exact Nat.zero_le _

theorem le255_hsv2bgrPix {h s v : ℕ} (hv : v ≤ 255) :
    (hsv2bgrPix h s v).1 ≤ 255 ∧ (hsv2bgrPix h s v).2.1 ≤ 255 ∧
      (hsv2bgrPix h s v).2.2 ≤ 255 := by
  unfold hsv2bgrPix
  split
  · exact ⟨hv, hv, hv⟩
  · dsimp only
    split <;> exact ⟨roundU8_le_255 _, roundU8_le_255 _, roundU8_le_255 _⟩

theorem le255_hsvVal {b g r : ℕ} (hb : b ≤ 255) (hg : g ≤ 255) (hr : r ≤ 255) :
    hsvVal b g r ≤ 255 := by
  unfold hsvVal
  omega

theorem le255_satBoost {g : Img} (m : ℚ) (hg : ImgLe255 g) :
    ImgLe255 (satBoostStage g m) := by
  intro y x c
  unfold satBoostStage hsv2bgr
  dsimp only
  have hv : (bgr2hsv g).pix y x 2 ≤ 255 := by
    unfold bgr2hsv
    dsimp only
    norm_num
    exact le255_hsvVal (hg y x 0) (hg y x 1) (hg y x 2)
  have := le255_hsv2bgrPix (h := (bgr2hsv g).pix y x 0)
    (s := truncU8 (((bgr2hsv g).pix y x 1 : ℚ) * m)) hv
  split
  · exact this.1
  · split
    · exact this.2.1
    · exact this.2.2

theorem le255_valBoost {g : Img} (m : ℚ) : ImgLe255 (valBoostStage g m) := by
  intro y x c
  unfold valBoostStage hsv2bgr
  dsimp only
  have := le255_hsv2bgrPix (h := (bgr2hsv g).pix y x 0)
    (s := (bgr2hsv g).pix y x 1) (truncU8_le_255 (((bgr2hsv g).pix y x 2 : ℚ) * m))
  split
  · exact this.1
  · split
    · exact this.2.1
    · exact this.2.2

theorem le255_labMerge {ops : CVOps} (hw : OpsWF ops) (l a b : Gray) :
    ImgLe255 (labMerge ops l a b) := by
  intro y x c
  unfold labMerge
  dsimp only
  obtain ⟨-, hlab, -⟩ := hw
  rcases hlab (l.pix y x) (a.pix y x) (b.pix y x) with ⟨h1, h2, h3⟩
  split
  · exact h1
  · split
    · exact h2
    · exact h3

theorem le255_runNLM {ops : CVOps} (hw : OpsWF ops) (h hc tw sw : ℕ) (g : Img) :
    ImgLe255 (runNLM ops h hc tw sw g) :=
  fun y x c => hw.1 h hc tw sw g.H g.W g.pix y x c

theorem le255_runWavelet {ops : CVOps} (hw : OpsWF ops) (s : ℚ) (pd : Bool) (g : Img) :
    ImgLe255 (runWavelet ops s pd g) :=
  fun y x c => hw.2.2 s pd g.H g.W g.pix y x c

theorem le255_reduce_stars {ops : CVOps} {g : Img} (hg : ImgLe255 g)
    (m : Option Gray) (r : ℚ) (pc : Bool) : ImgLe255 (reduce_stars ops g m r pc) := by
  unfold reduce_stars
  dsimp only
  split
  · exact hg
  · split
    · exact hg
    · exact fun _ _ _ => truncU8_le_255 _

theorem le255_astro_denoise {ops : CVOps} (hw : OpsWF ops) (g : Img) (s : ℚ)
    (ps ea : Bool) : ImgLe255 (astro_denoise ops g s ps ea) := by
  unfold astro_denoise
  dsimp only
  split
  · exact fun _ _ _ => truncU8_le_255 _
  · split
    · exact fun _ _ _ => truncU8_le_255 _
    · exact le255_runWavelet hw _ _ _

end AstroSlide

namespace AstroSlide

theorem le255_maskedSat {g : Img} (mask : Gray) (m : ℚ) (hg : ImgLe255 g) :
    ImgLe255 (maskedSatStage g mask m) := by
  intro y x c
  unfold maskedSatStage hsv2bgr
  dsimp only
  have hv : (bgr2hsv g).pix y x 2 ≤ 255 := by
    unfold bgr2hsv
    dsimp only
    norm_num
    exact le255_hsvVal (hg y x 0) (hg y x 1) (hg y x 2)
  have := le255_hsv2bgrPix (h := (bgr2hsv g).pix y x 0)
    (s := if 0 < mask.pix y x then truncU8 (((bgr2hsv g).pix y x 1 : ℚ) * m)
      else (bgr2hsv g).pix y x 1) hv
  split
  · exact this.1
  · split
    · exact this.2.1
    · exact this.2.2

theorem le255_mineral {ops : CVOps} (hw : OpsWF ops) (g : Img) :
    ImgLe255 (enhance_mineral_moon_subtle ops g) := by
  unfold enhance_mineral_moon_subtle
  exact le255_swapRB (le255_whereImgZero (le255_whereImg
    (le255_runNLM hw _ _ _ _ _)
    (le255_whereImg (le255_addWeighted _ _ _ _ _)
      (le255_maskedSat _ _ (le255_labMerge hw _ _ _)))))

theorem le255_deep_sky {ops : CVOps} (hw : OpsWF ops) (g : Img) :
    ImgLe255 (enhance_deep_sky ops g) := by
  unfold enhance_deep_sky
  exact le255_swapRB (le255_astro_denoise hw _ _ _ _)

theorem le255_general {ops : CVOps} (hw : OpsWF ops) (g : Img) :
    ImgLe255 (enhance_general ops g) := by
  unfold enhance_general
  exact le255_swapRB (le255_runNLM hw _ _ _ _ _)

theorem le255_moon_hdr {ops : CVOps} (hw : OpsWF ops) (g : Img) :
    ImgLe255 (enhance_moon_hdr ops g) := by
  unfold enhance_moon_hdr
  exact le255_swapRB (le255_whereImgZero (le255_whereImg
    (le255_runNLM hw _ _ _ _ _) (le255_labMerge hw _ _ _)))

theorem le255_nebula {ops : CVOps} (hw : OpsWF ops) (g : Img) :
    ImgLe255 (enhance_nebula ops g) := by
  unfold enhance_nebula
  exact le255_swapRB (le255_astro_denoise hw _ _ _ _)

theorem le255_galaxy {ops : CVOps} (hw : OpsWF ops) (g : Img) :
    ImgLe255 (enhance_galaxy ops g) := by
  unfold enhance_galaxy
  exact le255_swapRB (le255_astro_denoise hw _ _ _ _)

theorem le255_star_cluster {ops : CVOps} (hw : OpsWF ops) (g : Img) :
    ImgLe255 (enhance_star_cluster ops g) := by
  unfold enhance_star_cluster
  exact le255_swapRB (le255_astro_denoise hw _ _ _ _)

theorem le255_presetApply {ops : CVOps} (hw : OpsWF ops) {p : String}
    (hp : p ∈ presetIds) (g : Img) : ImgLe255 (presetApply ops p g) := by
  unfold presetApply
  split_ifs with h1 h2 h3 h4 h5 h6 h7
  · exact le255_mineral hw g
  · exact le255_deep_sky hw g
  · exact le255_general hw g
  · exact le255_moon_hdr hw g
  · exact le255_nebula hw g
  · exact le255_galaxy hw g
  · exact le255_star_cluster hw g
  · exfalso
    simp only [presetIds, PRESETS, List.map_cons, List.map_nil, List.mem_cons,
      List.not_mem_nil, or_false] at hp
    tauto

/-! ### Dimension preservation -/

theorem reduce_stars_H (ops : CVOps) (g : Img) (m : Option Gray) (r : ℚ) (pc : Bool) :
    (reduce_stars ops g m r pc).H = g.H := by
  unfold reduce_stars
  dsimp only
  split
  · rfl
  · split <;> rfl

theorem reduce_stars_W (ops : CVOps) (g : Img) (m : Option Gray) (r : ℚ) (pc : Bool) :
    (reduce_stars ops g m r pc).W = g.W := by
  unfold reduce_stars
  dsimp only
  split
  · rfl
  · split <;> rfl

theorem astro_denoise_H (ops : CVOps) (g : Img) (s : ℚ) (ps ea : Bool) :
    (astro_denoise ops g s ps ea).H = g.H := by
  unfold astro_denoise
  dsimp only
  split
  · rfl
  · split <;> rfl

theorem astro_denoise_W (ops : CVOps) (g : Img) (s : ℚ) (ps ea : Bool) :
    (astro_denoise ops g s ps ea).W = g.W := by
  unfold astro_denoise
  dsimp only
  split
  · rfl
  · split <;> rfl

theorem add_star_spikes_H (ops : CVOps) (g : Img) (sl sb tf : ℚ) :
    (add_star_spikes ops g sl sb tf).H = g.H := by
  unfold add_star_spikes
  dsimp only
  split <;> rfl

theorem add_star_spikes_W (ops : CVOps) (g : Img) (sl sb tf : ℚ) :
    (add_star_spikes ops g sl sb tf).W = g.W := by
  unfold add_star_spikes
  dsimp only
  split <;> rfl

theorem swapRB_H (g : Img) : (swapRB g).H = g.H := rfl

theorem swapRB_W (g : Img) : (swapRB g).W = g.W := rfl

theorem stretchChannels_H (g : Img) : (stretchChannels g).H = g.H := rfl

theorem stretchChannels_W (g : Img) : (stretchChannels g).W = g.W := rfl

theorem satBoostStage_H (g : Img) (m : ℚ) : (satBoostStage g m).H = g.H := rfl

theorem satBoostStage_W (g : Img) (m : ℚ) : (satBoostStage g m).W = g.W := rfl

theorem valBoostStage_H (g : Img) (m : ℚ) : (valBoostStage g m).H = g.H := rfl

theorem valBoostStage_W (g : Img) (m : ℚ) : (valBoostStage g m).W = g.W := rfl

theorem maskedSatStage_H (g : Img) (mk : Gray) (m : ℚ) :
    (maskedSatStage g mk m).H = g.H := rfl

theorem maskedSatStage_W (g : Img) (mk : Gray) (m : ℚ) :
    (maskedSatStage g mk m).W = g.W := rfl

theorem addWeighted_H (a : Img) (α : ℚ) (b : Img) (β γ : ℚ) :
    (addWeighted a α b β γ).H = a.H := rfl

theorem addWeighted_W (a : Img) (α : ℚ) (b : Img) (β γ : ℚ) :
    (addWeighted a α b β γ).W = a.W := rfl

theorem whereImg_H (m : Gray) (a b : Img) : (whereImg m a b).H = a.H := rfl

theorem whereImg_W (m : Gray) (a b : Img) : (whereImg m a b).W = a.W := rfl

theorem whereImgZero_H (m : Gray) (a : Img) : (whereImgZero m a).H = a.H := rfl

theorem whereImgZero_W (m : Gray) (a : Img) : (whereImgZero m a).W = a.W := rfl

theorem labMerge_H (ops : CVOps) (l a b : Gray) : (labMerge ops l a b).H = l.H := rfl

theorem labMerge_W (ops : CVOps) (l a b : Gray) : (labMerge ops l a b).W = l.W := rfl

theorem labL_H (ops : CVOps) (g : Img) : (labL ops g).H = g.H := rfl

theorem labL_W (ops : CVOps) (g : Img) : (labL ops g).W = g.W := rfl

theorem runClahe_H (ops : CVOps) (c : ℚ) (t : ℕ) (g : Gray) :
    (runClahe ops c t g).H = g.H := rfl

theorem runClahe_W (ops : CVOps) (c : ℚ) (t : ℕ) (g : Gray) :
    (runClahe ops c t g).W = g.W := rfl

theorem runNLM_H (ops : CVOps) (h hc tw sw : ℕ) (g : Img) :
    (runNLM ops h hc tw sw g).H = g.H := rfl

theorem runNLM_W (ops : CVOps) (h hc tw sw : ℕ) (g : Img) :
    (runNLM ops h hc tw sw g).W = g.W := rfl

theorem whereG_H (m a b : Gray) : (whereG m a b).H = a.H := rfl

theorem whereG_W (m a b : Gray) : (whereG m a b).W = a.W := rfl

theorem enhance_deep_sky_H (ops : CVOps) (g : Img) : (enhance_deep_sky ops g).H = g.H := by
  unfold enhance_deep_sky
  simp only [swapRB_H, astro_denoise_H, valBoostStage_H, reduce_stars_H,
    addWeighted_H, satBoostStage_H, stretchChannels_H]

theorem enhance_deep_sky_W (ops : CVOps) (g : Img) : (enhance_deep_sky ops g).W = g.W := by
  unfold enhance_deep_sky
  simp only [swapRB_W, astro_denoise_W, valBoostStage_W, reduce_stars_W,
    addWeighted_W, satBoostStage_W, stretchChannels_W]

theorem enhance_nebula_H (ops : CVOps) (g : Img) : (enhance_nebula ops g).H = g.H := by
  unfold enhance_nebula
  simp only [swapRB_H, astro_denoise_H, valBoostStage_H, reduce_stars_H,
    addWeighted_H, satBoostStage_H, stretchChannels_H]

theorem enhance_nebula_W (ops : CVOps) (g : Img) : (enhance_nebula ops g).W = g.W := by
  unfold enhance_nebula
  simp only [swapRB_W, astro_denoise_W, valBoostStage_W, reduce_stars_W,
    addWeighted_W, satBoostStage_W, stretchChannels_W]

theorem enhance_galaxy_H (ops : CVOps) (g : Img) : (enhance_galaxy ops g).H = g.H := by
  unfold enhance_galaxy
  simp only [swapRB_H, astro_denoise_H, valBoostStage_H, reduce_stars_H,
    addWeighted_H, satBoostStage_H, labMerge_H, runClahe_H, labL_H,
    stretchChannels_H]

theorem enhance_galaxy_W (ops : CVOps) (g : Img) : (enhance_galaxy ops g).W = g.W := by
  unfold enhance_galaxy
  simp only [swapRB_W, astro_denoise_W, valBoostStage_W, reduce_stars_W,
    addWeighted_W, satBoostStage_W, labMerge_W, runClahe_W, labL_W,
    stretchChannels_W]

theorem enhance_star_cluster_H (ops : CVOps) (g : Img) :
    (enhance_star_cluster ops g).H = g.H := by
  unfold enhance_star_cluster
  simp only [swapRB_H, astro_denoise_H, addWeighted_H, satBoostStage_H,
    stretchChannels_H]

theorem enhance_star_cluster_W (ops : CVOps) (g : Img) :
    (enhance_star_cluster ops g).W = g.W := by
  unfold enhance_star_cluster
  simp only [swapRB_W, astro_denoise_W, addWeighted_W, satBoostStage_W,
    stretchChannels_W]

theorem enhance_mineral_H (ops : CVOps) (g : Img) :
    (enhance_mineral_moon_subtle ops g).H = g.H := by
  unfold enhance_mineral_moon_subtle
  simp only [swapRB_H, whereImgZero_H, whereImg_H, runNLM_H, addWeighted_H,
    maskedSatStage_H, labMerge_H, whereG_H, runClahe_H, labL_H]

theorem enhance_mineral_W (ops : CVOps) (g : Img) :
    (enhance_mineral_moon_subtle ops g).W = g.W := by
  unfold enhance_mineral_moon_subtle
  simp only [swapRB_W, whereImgZero_W, whereImg_W, runNLM_W, addWeighted_W,
    maskedSatStage_W, labMerge_W, whereG_W, runClahe_W, labL_W]

theorem enhance_general_H (ops : CVOps) (g : Img) : (enhance_general ops g).H = g.H := by
  unfold enhance_general
  simp only [swapRB_H, runNLM_H, satBoostStage_H, stretchChannels_H]

theorem enhance_general_W (ops : CVOps) (g : Img) : (enhance_general ops g).W = g.W := by
  unfold enhance_general
  simp only [swapRB_W, runNLM_W, satBoostStage_W, stretchChannels_W]

theorem enhance_moon_hdr_H (ops : CVOps) (g : Img) :
    (enhance_moon_hdr ops g).H = g.H := by
  unfold enhance_moon_hdr
  simp only [swapRB_H, whereImgZero_H, whereImg_H, runNLM_H, labMerge_H,
    whereG_H, addWeighted_H, runClahe_H, labL_H]

theorem enhance_moon_hdr_W (ops : CVOps) (g : Img) :
    (enhance_moon_hdr ops g).W = g.W := by
  unfold enhance_moon_hdr
  simp only [swapRB_W, whereImgZero_W, whereImg_W, runNLM_W, labMerge_W,
    whereG_W, addWeighted_W, runClahe_W, labL_W]

theorem presetApply_H (ops : CVOps) (p : String) (g : Img) :
    (presetApply ops p g).H = g.H := by
  unfold presetApply
  split_ifs
  · exact enhance_mineral_H ops g
  · exact enhance_deep_sky_H ops g
  · exact enhance_general_H ops g
  · exact enhance_moon_hdr_H ops g
  · exact enhance_nebula_H ops g
  · exact enhance_galaxy_H ops g
  · exact enhance_star_cluster_H ops g
  · rfl

theorem presetApply_W (ops : CVOps) (p : String) (g : Img) :
    (presetApply ops p g).W = g.W := by
  unfold presetApply
  split_ifs
  · exact enhance_mineral_W ops g
  · exact enhance_deep_sky_W ops g
  · exact enhance_general_W ops g
  · exact enhance_moon_hdr_W ops g
  · exact enhance_nebula_W ops g
  · exact enhance_galaxy_W ops g
  · exact enhance_star_cluster_W ops g
  · rfl

theorem enhanceRun_H (ops : CVOps) (g : Img) (p : String) (i : ℚ) (s : Bool) :
    (enhanceRun ops g p i s).H = g.H := by
  unfold enhanceRun
  dsimp only
  split
  · rw [show ∀ a : Img, (swapRB a).H = a.H from fun _ => rfl, add_star_spikes_H]
    split
    · rfl
    · exact presetApply_H ops p g
  · split
    · rfl
    · exact presetApply_H ops p g

theorem enhanceRun_W (ops : CVOps) (g : Img) (p : String) (i : ℚ) (s : Bool) :
    (enhanceRun ops g p i s).W = g.W := by
  unfold enhanceRun
  dsimp only
  split
  · rw [show ∀ a : Img, (swapRB a).W = a.W from fun _ => rfl, add_star_spikes_W]
    split
    · rfl
    · exact presetApply_W ops p g
  · split
    · rfl
    · exact presetApply_W ops p g

end AstroSlide

namespace AstroSlide

/-! ### Claim C8: shape invariance -/

/-- Claim C8: for every input grid of shape H×W×3, every preset pipeline
and `enhance_with_preset`'s run (for every preset string, intensity and
star-spike flag) return a grid with exactly the same height and width; the
channel count is fixed at 3 by the pixel-grid representation itself.  No
operation changes the dimensions. -/
theorem claim_C8_shape_invariance (ops : CVOps) (g : Img) (p : String) (i : ℚ)
    (s : Bool) :
    (presetApply ops p g).H = g.H ∧ (presetApply ops p g).W = g.W ∧
    (enhanceRun ops g p i s).H = g.H ∧ (enhanceRun ops g p i s).W = g.W :=
  ⟨presetApply_H ops p g, presetApply_W ops p g,
    enhanceRun_H ops g p i s, enhanceRun_W ops g p i s⟩

/-! ### Claim C9: determinism -/

/-- Claim C9: for a fixed input grid, preset identifier, intensity and
star-spikes flag, two runs of `enhance_with_preset` produce identical
output grids.  The pipeline is a pure function of its inputs in this
model because the source contains no randomness: every step is
deterministic arithmetic over the pixel grid. -/
theorem claim_C9_determinism (ops : CVOps) (g g' : Img) (p p' : String)
    (i i' : ℚ) (s s' : Bool) (hg : g = g') (hp : p = p') (hi : i = i')
    (hs : s = s') :
    enhance_with_preset ops g p i s = enhance_with_preset ops g' p' i' s' := by
  subst hg hp hi hs
  rfl

/-- Witness for C9 at a concrete input. -/
theorem claim_C9_determinism_witness :
    enhance_with_preset idOps (constImg 1 1 0) "general" (3/4) false =
      enhance_with_preset idOps (constImg 1 1 0) "general" (3/4) false :=
  claim_C9_determinism idOps (constImg 1 1 0) (constImg 1 1 0) "general" "general"
    (3/4) (3/4) false false rfl rfl rfl rfl

/-! ### Claim C3: unknown preset identifiers -/

/-- Claim C3: for every grid and every preset identifier not in the
registry, `enhance_with_preset` fails with an error that names the set of
valid identifiers, and does so before any pixel computation (the result is
the same error for every input grid); for every identifier in the registry
this check does not fail. -/
theorem claim_C3_unknown_preset (ops : CVOps) (g g' : Img) (p : String)
    (i : ℚ) (s : Bool) :
    (p ∉ presetIds →
      enhance_with_preset ops g p i s = .error ⟨p, presetIds⟩ ∧
      enhance_with_preset ops g p i s = enhance_with_preset ops g' p i s) ∧
    (p ∈ presetIds → ∃ out, enhance_with_preset ops g p i s = .ok out) := by
  constructor
  · intro hp
    unfold enhance_with_preset
    rw [if_neg hp, if_neg hp]
    exact ⟨rfl, rfl⟩
  · intro hp
    unfold enhance_with_preset
    rw [if_pos hp]
    exact ⟨_, rfl⟩

/-- Witness for C3: a concrete unknown identifier is rejected with the
registry list in the error; a concrete known identifier passes the
check. -/
theorem claim_C3_unknown_preset_witness :
    ("definitely_not_a_preset" ∉ presetIds ∧
      enhance_with_preset idOps (constImg 1 1 0) "definitely_not_a_preset" (3/4) false =
        .error ⟨"definitely_not_a_preset", presetIds⟩) ∧
    ("general" ∈ presetIds ∧
      ∃ out, enhance_with_preset idOps (constImg 1 1 0) "general" (3/4) false = .ok out) := by
  have h1 : "definitely_not_a_preset" ∉ presetIds := by decide
  have h2 : "general" ∈ presetIds := by decide
  exact ⟨⟨h1, ((claim_C3_unknown_preset idOps (constImg 1 1 0) (constImg 1 1 0)
      "definitely_not_a_preset" (3/4) false).1 h1).1⟩,
    h2, (claim_C3_unknown_preset idOps (constImg 1 1 0) (constImg 1 1 0)
      "general" (3/4) false).2 h2⟩

/-! ### Claim C2: silent clamping of out-of-range continuous parameters -/

theorem enhanceRun_clamp_congr (ops : CVOps) (g : Img) (p : String) (s : Bool)
    {i i' : ℚ} (h : max 0 (min 1 i) = max 0 (min 1 i')) :
    enhanceRun ops g p i s = enhanceRun ops g p i' s := by
  simp only [enhanceRun]
  rw [h]

theorem reduce_stars_clamp_congr (ops : CVOps) (g : Img) (m : Option Gray)
    (pc : Bool) {r r' : ℚ} (h : max 0 (min 1 r) = max 0 (min 1 r')) :
    reduce_stars ops g m r pc = reduce_stars ops g m r' pc := by
  simp only [reduce_stars]
  rw [h]

/-- Claim C2: out-of-range continuous parameters are silently clamped,
never rejected: `enhance_with_preset` with intensity ≥ 1 returns exactly
the same output as intensity 1.0, with intensity ≤ 0 exactly the same
output as intensity 0.0; `reduce_stars` with reduction amount ≥ 1 behaves
identically to 1.0 and with reduction amount ≤ 0 identically to 0.0. -/
theorem claim_C2_range_clamping (ops : CVOps) (g : Img) (p : String) (s : Bool)
    (i r : ℚ) (m : Option Gray) (pc : Bool) :
    (1 ≤ i → enhance_with_preset ops g p i s = enhance_with_preset ops g p 1 s) ∧
    (i ≤ 0 → enhance_with_preset ops g p i s = enhance_with_preset ops g p 0 s) ∧
    (1 ≤ r → reduce_stars ops g m r pc = reduce_stars ops g m 1 pc) ∧
    (r ≤ 0 → reduce_stars ops g m r pc = reduce_stars ops g m 0 pc) := by
  have clampHi : ∀ q : ℚ, 1 ≤ q → max 0 (min 1 q) = max 0 (min 1 (1:ℚ)) := by
    intro q hq
    rw [min_eq_left hq]
    norm_num
  have clampLo : ∀ q : ℚ, q ≤ 0 → max 0 (min 1 q) = max 0 (min 1 (0:ℚ)) := by
    intro q hq
    rw [min_eq_right (le_trans hq (by norm_num)), max_eq_left hq]
    norm_num
  refine ⟨fun h1 => ?_, fun h0 => ?_, fun h1 => ?_, fun h0 => ?_⟩
  · unfold enhance_with_preset
    rw [enhanceRun_clamp_congr ops g p s (clampHi i h1)]
  · unfold enhance_with_preset
    rw [enhanceRun_clamp_congr ops g p s (clampLo i h0)]
  · exact reduce_stars_clamp_congr ops g m pc (clampHi r h1)
  · exact reduce_stars_clamp_congr ops g m pc (clampLo r h0)

/-- Witness for C2 at the spec's concrete out-of-range values 1.7, −0.3
(and 1.5, −0.5 for the reduction amount). -/
theorem claim_C2_range_clamping_witness :
    (enhance_with_preset idOps (constImg 1 1 0) "general" (17/10) false =
      enhance_with_preset idOps (constImg 1 1 0) "general" 1 false) ∧
    (enhance_with_preset idOps (constImg 1 1 0) "general" (-(3/10)) false =
      enhance_with_preset idOps (constImg 1 1 0) "general" 0 false) ∧
    (reduce_stars idOps (constImg 1 1 0) none (3/2) true =
      reduce_stars idOps (constImg 1 1 0) none 1 true) ∧
    (reduce_stars idOps (constImg 1 1 0) none (-(1/2)) true =
      reduce_stars idOps (constImg 1 1 0) none 0 true) :=
  ⟨(claim_C2_range_clamping idOps (constImg 1 1 0) "general" false (17/10) 0 none
      true).1 (by norm_num),
    (claim_C2_range_clamping idOps (constImg 1 1 0) "general" false (-(3/10)) 0 none
      true).2.1 (by norm_num),
    (claim_C2_range_clamping idOps (constImg 1 1 0) "general" false 0 (3/2) none
      true).2.2.1 (by norm_num),
    (claim_C2_range_clamping idOps (constImg 1 1 0) "general" false 0 (-(1/2)) none
      true).2.2.2 (by norm_num)⟩

end AstroSlide

namespace AstroSlide

/-! ### Claim C10: histogram bins and totals -/

theorem sum_range_ite_eq_zero (a : ℕ) : ∀ n, n ≤ a →
    ((List.range n).map (fun v => if a = v then 1 else 0)).sum = 0 := by
  intro n
  induction n with
  | zero => intro _; simp
  | succ k ih =>
    intro h
    rw [List.range_succ, List.map_append, List.sum_append, ih (by omega)]
    have hak : a ≠ k := by omega
    simp [hak]

theorem sum_range_ite_eq_one (a : ℕ) : ∀ n, a < n →
    ((List.range n).map (fun v => if a = v then 1 else 0)).sum = 1 := by
  intro n
  induction n with
  | zero => intro h; omega
  | succ k ih =>
    intro h
    rw [List.range_succ, List.map_append, List.sum_append]
    by_cases hak : a = k
    · subst hak
      rw [sum_range_ite_eq_zero a a le_rfl]
      simp
    · have hlt : a < k := by omega
      rw [ih hlt]
      simp [hak]

/-- The 256 bin counts of a histogram sum to the number of samples when
every sample is an 8-bit value. -/
theorem histOfList_sum (l : List ℕ) (h : ∀ a ∈ l, a < 256) :
    (histOfList l).sum = l.length := by
  induction l with
  | nil =>
    unfold histOfList
    have hz : ((List.range 256).map fun v => ([] : List ℕ).count v) =
        (List.range 256).map fun _ => 0 := by
      apply List.map_congr_left
      intro v _
      simp
    rw [hz, List.map_const', List.sum_replicate]
    simp
  | cons a t ih =>
    unfold histOfList at *
    have step : ((List.range 256).map fun v => (a :: t).count v) =
        ((List.range 256).map fun v => t.count v + if a = v then 1 else 0) := by
      apply List.map_congr_left
      intro v _
      simp [List.count_cons]
    rw [step, List.sum_map_add, ih (fun b hb => h b (List.mem_cons_of_mem a hb)),
      sum_range_ite_eq_one a 256 (h a (List.mem_cons_self a t))]
    simp

theorem mem_chanVals {g : Img} {c a : ℕ} (h : a ∈ chanVals g c) :
    ∃ y x, y < g.H ∧ x < g.W ∧ a = g.pix y x c := by
  simp only [chanVals, List.mem_flatMap, List.mem_map, List.mem_range] at h
  obtain ⟨y, hy, x, hx, rfl⟩ := h
  exact ⟨y, x, hy, hx, rfl⟩

theorem mem_grayVals {g : Gray} {a : ℕ} (h : a ∈ grayVals g) :
    ∃ y x, y < g.H ∧ x < g.W ∧ a = g.pix y x := by
  simp only [grayVals, List.mem_flatMap, List.mem_map, List.mem_range] at h
  obtain ⟨y, hy, x, hx, rfl⟩ := h
  exact ⟨y, x, hy, hx, rfl⟩

theorem chanVals_length (g : Img) (c : ℕ) : (chanVals g c).length = g.H * g.W := by
  simp [chanVals, List.length_flatMap, Function.comp_def, List.map_const',
    List.sum_replicate, smul_eq_mul]

theorem grayVals_length (g : Gray) : (grayVals g).length = g.H * g.W := by
  simp [grayVals, List.length_flatMap, Function.comp_def, List.map_const',
    List.sum_replicate, smul_eq_mul]

theorem bgr2grayPix_le {b g r : ℕ} (hb : b ≤ 255) (hg : g ≤ 255) (hr : r ≤ 255) :
    bgr2grayPix b g r ≤ 255 := by
  unfold bgr2grayPix
  omega

/-- Claim C10: for every decoded well-formed H×W×3 grid, each of the four
arrays (red, green, blue, luminance) returned by the histogram operation
has exactly 256 bins, and the counts of each array sum to exactly H·W. -/
theorem claim_C10_histogram (g : Img) (hg : g.wf) :
    (calculate_histogram g).1.length = 256 ∧
    (calculate_histogram g).1.sum = g.H * g.W ∧
    (calculate_histogram g).2.1.length = 256 ∧
    (calculate_histogram g).2.1.sum = g.H * g.W ∧
    (calculate_histogram g).2.2.1.length = 256 ∧
    (calculate_histogram g).2.2.1.sum = g.H * g.W ∧
    (calculate_histogram g).2.2.2.length = 256 ∧
    (calculate_histogram g).2.2.2.sum = g.H * g.W := by
  have hlen : ∀ l : List ℕ, (histOfList l).length = 256 := by
    intro l
    simp [histOfList]
  have hbgr : ∀ c, c < 3 → ∀ a ∈ chanVals (swapRB g) c, a < 256 := by
    intro c hc a ha
    obtain ⟨y, x, hy, hx, rfl⟩ := mem_chanVals ha
    have h255 := hg y hy x hx (2 - c) (by omega)
    show g.pix y x (2 - c) < 256
    omega
  have hgray : ∀ a ∈ grayVals (bgr2gray (swapRB g)), a < 256 := by
    intro a ha
    obtain ⟨y, x, hy, hx, rfl⟩ := mem_grayVals ha
    show bgr2grayPix (g.pix y x 2) (g.pix y x 1) (g.pix y x 0) < 256
    have h2 := hg y hy x hx 2 (by omega)
    have h1 := hg y hy x hx 1 (by omega)
    have h0 := hg y hy x hx 0 (by omega)
    have := bgr2grayPix_le h2 h1 h0
    omega
  unfold calculate_histogram
  dsimp only
  refine ⟨hlen _, ?_, hlen _, ?_, hlen _, ?_, hlen _, ?_⟩
  · rw [histOfList_sum _ (hbgr 2 (by omega)), chanVals_length]
    rfl
  · rw [histOfList_sum _ (hbgr 1 (by omega)), chanVals_length]
    rfl
  · rw [histOfList_sum _ (hbgr 0 (by omega)), chanVals_length]
    rfl
  · rw [histOfList_sum _ hgray, grayVals_length]
    rfl

/-- Witness for C10 at a concrete 1×2 grid. -/
theorem claim_C10_histogram_witness :
    (constImg 1 2 7).wf ∧
    (calculate_histogram (constImg 1 2 7)).1.sum = 1 * 2 :=
  ⟨by decide, (claim_C10_histogram (constImg 1 2 7) (by decide)).2.1⟩

end AstroSlide

namespace AstroSlide

/-! ### Claim C4: `reduce_stars` no-ops -/

theorem pyInt_nonpos {q : ℚ} (h : q ≤ 0) : pyInt q ≤ 0 := by
  unfold pyInt
  split
  · have : q = 0 := le_antisymm h (by assumption)
    simp [this]
  · have : (0 : ℤ) ≤ ⌊-q⌋ := Int.floor_nonneg.2 (by linarith)
    omega

theorem meanL_of_all_zero {l : List ℕ} (h : ∀ a ∈ l, a = 0) : meanL l = 0 := by
  unfold meanL
  have hsum : (l.map (fun a => (Nat.cast a : ℚ))).sum = 0 := by
    apply List.sum_eq_zero
    intro x hx
    obtain ⟨a, ha, hfa⟩ := List.mem_map.1 hx
    rw [← hfa, h a ha]
    norm_num
  rw [hsum]
  simp

theorem countPos_eq_zero {m : Gray} (h : ∀ y x, y < m.H → x < m.W → m.pix y x = 0) :
    countPos m = 0 := by
  unfold countPos
  rw [List.countP_eq_zero]
  intro a ha
  obtain ⟨y, x, hy, hx, rfl⟩ := mem_grayVals ha
  simp [h y x hy hx]

theorem foldl_invar {α : Type} {β : Type} (f : α → β → α) (P : α → Prop)
    (h : ∀ a b, P a → P (f a b)) : ∀ (l : List β) (a : α), P a → P (l.foldl f a) := by
  intro l
  induction l with
  | nil => exact fun a ha => ha
  | cons d t ih =>
    intro a ha
    rw [List.foldl_cons]
    exact ih _ (h a d ha)

theorem dilateG_zero {g : Gray} (hz : ∀ y x, g.pix y x = 0) (se : List (ℤ × ℤ)) :
    ∀ y x, (dilateG se g).pix y x = 0 := by
  intro y x
  unfold dilateG
  dsimp only
  apply foldl_invar _ (fun a => a = 0) _ se _ (hz y x)
  intro a d ha
  subst ha
  split
  · simp [hz]
  · rfl

theorem erodeG_zero {g : Gray} (hz : ∀ y x, g.pix y x = 0) (se : List (ℤ × ℤ)) :
    ∀ y x, (erodeG se g).pix y x = 0 := by
  intro y x
  unfold erodeG
  dsimp only
  apply foldl_invar _ (fun a => a = 0) _ se _ (hz y x)
  intro a d ha
  subst ha
  split
  · simp [hz]
  · rfl

/-- On the all-zero grid, aggressive star detection produces the all-zero
mask, provided the Gaussian local mean of the zero plane is zero (true of
any normalized weighted mean, in particular OpenCV's). -/
theorem detect_stars_zero (ops : CVOps) (H W : ℕ) (s : ℚ) (hs : 0 < s)
    (hsmooth : ops.adaptMean 31 H W (fun _ _ => 0) = fun _ _ => 0) :
    ∀ y x, (detect_stars_aggressive ops (zeroImg H W) s).pix y x = 0 := by
  have hgpix : (bgr2gray (zeroImg H W)).pix = (fun _ _ => 0) := by
    funext y x
    simp [bgr2gray, zeroImg, bgr2grayPix]
  unfold detect_stars_aggressive
  dsimp only
  apply dilateG_zero
  intro y x
  apply erodeG_zero (fun y x => ?_)
  apply dilateG_zero (fun y x => ?_)
  apply dilateG_zero (fun y x => ?_)
  apply erodeG_zero (fun y x => ?_)
  -- the combined (bitwise-or) mask is zero
  show max _ _ = 0
  rw [Nat.max_eq_zero_iff]
  constructor
  · -- adaptive threshold arm
    show (if _ < _ then 255 else 0) = 0
    rw [if_neg]
    rw [hgpix]
    have hm : ops.adaptMean 31 (bgr2gray (zeroImg H W)).H (bgr2gray (zeroImg H W)).W
        (fun _ _ => 0) = fun _ _ => 0 := hsmooth
    rw [hm]
    have hc : pyInt (-3 * s) ≤ 0 := pyInt_nonpos (by nlinarith)
    have hc' : ((pyInt (-3 * s) : ℤ) : ℚ) ≤ 0 := by exact_mod_cast hc
    push_neg
    push_cast
    linarith
  · -- global mean+std threshold arm
    show (if gtMeanPlusStd _ _ _ _ = true then 255 else 0) = 0
    rw [if_neg]
    have hmean : meanL (grayVals (bgr2gray (zeroImg H W))) = 0 := by
      apply meanL_of_all_zero
      intro a ha
      obtain ⟨y', x', _, _, rfl⟩ := mem_grayVals ha
      rw [hgpix]
    simp only [gtMeanPlusStd, hgpix, hmean]
    simp

/-- Claim C4: `reduce_stars` is a safe no-op on degenerate input: at
reduction amount 0 it returns the input unchanged; whenever auto-detection
finds zero star pixels it returns the input unchanged; and on every pure
black (all-zero) grid it returns the all-zero grid unchanged (the
hypothesis states that the Gaussian local mean used by the adaptive
threshold maps the zero plane to zero). -/
theorem claim_C4_reduce_stars_noop (ops : CVOps) (g : Img) (m : Option Gray)
    (pc : Bool) (r : ℚ) (H W : ℕ)
    (hsmooth : ops.adaptMean 31 H W (fun _ _ => 0) = fun _ _ => 0) :
    reduce_stars ops g m 0 pc = g ∧
    (∀ r', countPos (detect_stars_aggressive ops g
        (1 - max 0 (min 1 r') * (3/10))) = 0 →
      reduce_stars ops g none r' pc = g) ∧
    reduce_stars ops (zeroImg H W) none r pc = zeroImg H W := by
  refine ⟨?_, ?_, ?_⟩
  · unfold reduce_stars
    rw [if_pos (by norm_num)]
  · intro r' hdet
    unfold reduce_stars
    by_cases hzero : max 0 (min 1 r') = 0
    · rw [if_pos hzero]
    · rw [if_neg hzero]
      dsimp only
      rw [if_pos hdet]
  · unfold reduce_stars
    by_cases hzero : max 0 (min 1 r) = 0
    · rw [if_pos hzero]
    · rw [if_neg hzero]
      dsimp only
      rw [if_pos]
      apply countPos_eq_zero
      intro y x _ _
      apply detect_stars_zero ops H W _ _ hsmooth
      have h1 : max 0 (min 1 r) ≤ 1 := by
        rcases le_total (1 : ℚ) r with h | h <;>
          simp [min_def, max_def, h] <;> split <;> linarith
      nlinarith [h1]

/-- Witness for C4: the concrete operator instance, a concrete 2×2 grid
and the all-zero 2×2 grid. -/
theorem claim_C4_reduce_stars_noop_witness :
    (idOps.adaptMean 31 2 2 (fun _ _ => 0) = fun _ _ => 0) ∧
    reduce_stars idOps (constImg 2 2 9) none 0 true = constImg 2 2 9 ∧
    (countPos (detect_stars_aggressive idOps (zeroImg 2 2)
        (1 - max 0 (min 1 (1/2)) * (3/10))) = 0 ∧
      reduce_stars idOps (zeroImg 2 2) none (1/2) true = zeroImg 2 2) ∧
    reduce_stars idOps (zeroImg 3 3) none (1/2) true = zeroImg 3 3 := by
  have hsm : idOps.adaptMean 31 2 2 (fun _ _ => 0) = fun _ _ => 0 := rfl
  have hsm3 : idOps.adaptMean 31 3 3 (fun _ _ => 0) = fun _ _ => 0 := rfl
  have hdet : countPos (detect_stars_aggressive idOps (zeroImg 2 2)
      (1 - max 0 (min 1 (1/2)) * (3/10))) = 0 :=
    countPos_eq_zero (fun y x _ _ =>
      detect_stars_zero idOps 2 2 _ (by norm_num) hsm y x)
  exact ⟨hsm,
    (claim_C4_reduce_stars_noop idOps (constImg 2 2 9) none true (1/2) 2 2 hsm).1,
    ⟨hdet, (claim_C4_reduce_stars_noop idOps (zeroImg 2 2) none true (1/2) 2 2
      hsm).2.1 (1/2) hdet⟩,
    (claim_C4_reduce_stars_noop idOps (zeroImg 3 3) none true (1/2) 3 3 hsm3).2.2⟩

end AstroSlide

namespace AstroSlide

/-! ### Claim C6: adaptive saturation -/

/-- The desaturation-compensation threshold table (on the normalized mean
saturation). -/
def satFactorRule (mean_sat : ℚ) : ℚ :=
  if mean_sat < 3/20 then 13/10
  else if mean_sat < 1/4 then 23/20
  else if 2/5 < mean_sat then 17/20
  else 1

/-- The variance-confidence threshold table (on the squared normalized
saturation standard deviation). -/
def varianceFactorRule (std_sq : ℚ) : ℚ :=
  if (3/20) ^ 2 < std_sq then 11/10
  else if std_sq < (2/25) ^ 2 then 19/20
  else 1

/-- The brightness threshold table (on the normalized mean value). -/
def brightnessFactorRule (mean_val : ℚ) : ℚ :=
  if mean_val < 3/10 then 21/20
  else if 7/10 < mean_val then 49/50
  else 1

/-- The distribution-skew threshold table (on the normalized 75th
saturation percentile). -/
def distributionFactorRule (p75 : ℚ) : ℚ :=
  if 1/2 < p75 then 9/10
  else if p75 < 1/5 then 11/10
  else 1

/-- Claim C6: `calculate_adaptive_saturation` returns the base multiplier
unchanged when the mask has no positive pixels; with at least one positive
pixel it returns the base multiplier multiplied by the four threshold-rule
correction factors (desaturation, variance, brightness, distribution of
the masked HSV statistics), with the final result clamped into
`[1.2, 1.8]`. -/
theorem claim_C6_adaptive_saturation (img : Img) (mask : Gray) (b : ℚ) :
    (maskedCount img.H img.W mask = 0 →
      calculate_adaptive_saturation img mask b = b) ∧
    (0 < maskedCount img.H img.W mask →
      calculate_adaptive_saturation img mask b =
        clampQ (6/5) (9/5)
          (b *
            satFactorRule
              (meanL (maskedVals img.H img.W mask
                (fun y x => (bgr2hsv img).pix y x 1)) / 255) *
            varianceFactorRule
              (varL (maskedVals img.H img.W mask
                (fun y x => (bgr2hsv img).pix y x 1)) / 255 ^ 2) *
            brightnessFactorRule
              (meanL (maskedVals img.H img.W mask
                (fun y x => (bgr2hsv img).pix y x 2)) / 255) *
            distributionFactorRule
              (percentileQ (maskedVals img.H img.W mask
                (fun y x => (bgr2hsv img).pix y x 1)) 75 / 255))) := by
  constructor
  · intro h0
    unfold calculate_adaptive_saturation
    rw [if_pos h0]
  · intro hpos
    unfold calculate_adaptive_saturation
    rw [if_neg (Nat.pos_iff_ne_zero.1 hpos)]
    rfl

/-- Witness for C6: a concrete 1×2 image with an empty mask and with a
one-pixel mask. -/
theorem claim_C6_adaptive_saturation_witness :
    (maskedCount 1 2 (⟨1, 2, fun _ _ => 0⟩ : Gray) = 0 ∧
      calculate_adaptive_saturation ⟨1, 2, fun _ _ _ => 30⟩
        ⟨1, 2, fun _ _ => 0⟩ (7/5) = 7/5) ∧
    (0 < maskedCount 1 2 (⟨1, 2, fun _ x => if x = 0 then 255 else 0⟩ : Gray) ∧
      calculate_adaptive_saturation ⟨1, 2, fun _ _ _ => 30⟩
        ⟨1, 2, fun _ x => if x = 0 then 255 else 0⟩ (7/5) =
        clampQ (6/5) (9/5)
          ((7/5) *
            satFactorRule
              (meanL (maskedVals 1 2 ⟨1, 2, fun _ x => if x = 0 then 255 else 0⟩
                (fun y x => (bgr2hsv ⟨1, 2, fun _ _ _ => 30⟩).pix y x 1)) / 255) *
            varianceFactorRule
              (varL (maskedVals 1 2 ⟨1, 2, fun _ x => if x = 0 then 255 else 0⟩
                (fun y x => (bgr2hsv ⟨1, 2, fun _ _ _ => 30⟩).pix y x 1)) / 255 ^ 2) *
            brightnessFactorRule
              (meanL (maskedVals 1 2 ⟨1, 2, fun _ x => if x = 0 then 255 else 0⟩
                (fun y x => (bgr2hsv ⟨1, 2, fun _ _ _ => 30⟩).pix y x 2)) / 255) *
            distributionFactorRule
              (percentileQ (maskedVals 1 2 ⟨1, 2, fun _ x => if x = 0 then 255 else 0⟩
                (fun y x => (bgr2hsv ⟨1, 2, fun _ _ _ => 30⟩).pix y x 1)) 75 / 255))) := by
  refine ⟨⟨by decide, ?_⟩, ⟨by decide, ?_⟩⟩
  · exact (claim_C6_adaptive_saturation ⟨1, 2, fun _ _ _ => 30⟩
      ⟨1, 2, fun _ _ => 0⟩ (7/5)).1 (by decide)
  · exact (claim_C6_adaptive_saturation ⟨1, 2, fun _ _ _ => 30⟩
      ⟨1, 2, fun _ x => if x = 0 then 255 else 0⟩ (7/5)).2 (by decide)

end AstroSlide

namespace AstroSlide

/-! ### Claim C1: intensity blending -/

theorem enhanceRun_one (ops : CVOps) (g : Img) (p : String) :
    enhanceRun ops g p 1 false = presetApply ops p g := by
  unfold enhanceRun
  dsimp only
  rw [show max 0 (min 1 (1:ℚ)) = 1 by norm_num, if_neg (lt_irrefl (1:ℚ))]
  rfl

theorem enhanceRun_blend_pix (ops : CVOps) (g : Img) (p : String) {i : ℚ}
    (h0 : 0 ≤ i) (h1 : i < 1) :
    enhanceRun ops g p i false =
      ⟨g.H, g.W, fun y x c =>
        truncU8 ((g.pix y x c : ℚ) * (1 - i) +
          ((presetApply ops p g).pix y x c : ℚ) * i)⟩ := by
  unfold enhanceRun
  dsimp only
  rw [show max 0 (min 1 i) = i by rw [min_eq_right (le_of_lt h1), max_eq_right h0],
    if_pos h1]
  rfl

/-- Truncating the clipped convex blend of two 8-bit samples lands within
±1 of the rounded blend. -/
theorem trunc_blend_close (o e : ℕ) (i : ℚ) (ho : o ≤ 255) (he : e ≤ 255)
    (h0 : 0 ≤ i) (h1 : i ≤ 1) :
    |(truncU8 ((o:ℚ) * (1 - i) + (e:ℚ) * i) : ℤ) -
      ⌊(o:ℚ) * (1 - i) + (e:ℚ) * i + 1/2⌋| ≤ 1 := by
  set t : ℚ := (o:ℚ) * (1 - i) + (e:ℚ) * i with ht
  have hoq : (o:ℚ) ≤ 255 := by exact_mod_cast ho
  have heq : (e:ℚ) ≤ 255 := by exact_mod_cast he
  have htn : 0 ≤ t := by
    apply add_nonneg
    · exact mul_nonneg (Nat.cast_nonneg o) (by linarith)
    · exact mul_nonneg (Nat.cast_nonneg e) h0
  have ht255 : t ≤ 255 := by
    nlinarith [mul_nonneg (sub_nonneg.2 hoq) (sub_nonneg.2 h1),
      mul_nonneg (sub_nonneg.2 heq) h0]
  have hclip : clipQ t = t := by
    unfold clipQ
    rw [min_eq_left ht255, max_eq_right htn]
  have htrunc : (truncU8 t : ℤ) = ⌊t⌋ := by
    unfold truncU8
    rw [hclip]
    exact Int.toNat_of_nonneg (Int.floor_nonneg.2 htn)
  rw [htrunc]
  have hle : ⌊t⌋ ≤ ⌊t + 1/2⌋ := Int.floor_le_floor (by linarith)
  have hge : ⌊t + 1/2⌋ < ⌊t⌋ + 2 := by
    apply Int.floor_lt.2
    have := Int.lt_floor_add_one t
    push_cast
    linarith
  rw [abs_le]
  omega

/-- Claim C1: for every well-formed grid, registry preset and intensity in
`[0,1]` (with the spikes flag off, its default): at intensity 1.0 the run
returns exactly the unblended pipeline output; at intensity 0 it returns
the original grid exactly; and at every intensity each output sample lies
within ±1 of `round(original·(1−i) + enhanced·i)` where `enhanced` is the
full-intensity pipeline output. -/
theorem claim_C1_intensity_blend (ops : CVOps) (g : Img) (p : String) (i : ℚ)
    (hw : OpsWF ops) (hg : g.wf) (hp : p ∈ presetIds) (h0 : 0 ≤ i) (h1 : i ≤ 1) :
    enhanceRun ops g p 1 false = presetApply ops p g ∧
    ImgEq (enhanceRun ops g p 0 false) g ∧
    (∀ y < g.H, ∀ x < g.W, ∀ c < 3,
      |((enhanceRun ops g p i false).pix y x c : ℤ) -
        ⌊(g.pix y x c : ℚ) * (1 - i) +
          ((presetApply ops p g).pix y x c : ℚ) * i + 1/2⌋| ≤ 1) := by
  refine ⟨enhanceRun_one ops g p, ?_, ?_⟩
  · rw [enhanceRun_blend_pix ops g p le_rfl one_pos]
    refine ⟨rfl, rfl, fun y hy x hx c hc => ?_⟩
    dsimp only
    have harith : (g.pix y x c : ℚ) * (1 - 0) +
        ((presetApply ops p g).pix y x c : ℚ) * 0 = (g.pix y x c : ℚ) := by ring
    rw [harith, truncU8_natCast _ (hg y hy x hx c hc)]
  · intro y hy x hx c hc
    rcases lt_or_eq_of_le h1 with hlt | heq
    · rw [enhanceRun_blend_pix ops g p h0 hlt]
      exact trunc_blend_close _ _ i (hg y hy x hx c hc)
        (le255_presetApply hw hp g y x c) h0 h1
    · subst heq
      rw [enhanceRun_one ops g p]
      have hfloor : ⌊(g.pix y x c : ℚ) * (1 - 1) +
          ((presetApply ops p g).pix y x c : ℚ) * 1 + 1/2⌋ =
          ((presetApply ops p g).pix y x c : ℤ) := by
        rw [Int.floor_eq_iff]
        constructor
        · push_cast
          linarith
        · push_cast
          linarith
      rw [hfloor]
      simp

/-- Witness for C1 at a concrete grid, preset and intensity. -/
theorem claim_C1_intensity_blend_witness :
    OpsWF idOps ∧ (constImg 1 1 10).wf ∧ "general" ∈ presetIds ∧
    (0:ℚ) ≤ 1/2 ∧ (1/2:ℚ) ≤ 1 ∧
    ImgEq (enhanceRun idOps (constImg 1 1 10) "general" 0 false) (constImg 1 1 10) :=
  ⟨idOps_wf, by decide, by decide, by norm_num, by norm_num,
    (claim_C1_intensity_blend idOps (constImg 1 1 10) "general" (1/2) idOps_wf
      (by decide) (by decide) (by norm_num) (by norm_num)).2.1⟩

end AstroSlide

namespace AstroSlide

/-! ### Claim C7: degenerate percentile stretch and the all-gray scenario -/

theorem percentileQ_nil (q : ℚ) : percentileQ [] q = 0 := rfl

/-- Any percentile (with `0 ≤ q ≤ 100`) of a nonempty constant list is the
constant. -/
theorem percentileQ_const {l : List ℕ} {v : ℕ} (hne : l ≠ [])
    (hall : ∀ a ∈ l, a = v) {q : ℚ} (hq0 : 0 ≤ q) (hq1 : q ≤ 100) :
    percentileQ l q = (v : ℚ) := by
  unfold percentileQ
  dsimp only
  set s := l.insertionSort (· ≤ ·) with hs
  have hmem : ∀ a ∈ s, a = v := fun a ha =>
    hall a ((List.perm_insertionSort (· ≤ ·) l).mem_iff.1 ha)
  have hlen : s.length = l.length := List.length_insertionSort _ _
  have hlen0 : s.length ≠ 0 := by
    rw [hlen]
    exact fun h => hne (List.length_eq_zero.1 h)
  rw [if_neg hlen0]
  have hlen1 : (1 : ℚ) ≤ (s.length : ℚ) := by
    have : 1 ≤ s.length := Nat.one_le_iff_ne_zero.2 hlen0
    exact_mod_cast this
  have hpos0 : 0 ≤ q / 100 * ((s.length : ℚ) - 1) := by
    apply mul_nonneg (by positivity)
    linarith
  have hposle : q / 100 * ((s.length : ℚ) - 1) ≤ (s.length : ℚ) - 1 := by
    have hf : q / 100 ≤ 1 := by linarith [div_le_one_of_le₀ hq1 (by norm_num : (0:ℚ) ≤ 100)]
    nlinarith
  have hi : (⌊q / 100 * ((s.length : ℚ) - 1)⌋).toNat < s.length := by
    have h1 : ⌊q / 100 * ((s.length : ℚ) - 1)⌋ ≤ ⌊(s.length : ℚ) - 1⌋ :=
      Int.floor_le_floor hposle
    have h2 : ⌊(s.length : ℚ) - 1⌋ = (s.length : ℤ) - 1 := by
      rw [show ((s.length : ℚ) - 1) = ((s.length - 1 : ℤ) : ℚ) by push_cast; ring]
      exact Int.floor_intCast _
    omega
  have hgi : s.getD (⌊q / 100 * ((s.length : ℚ) - 1)⌋).toNat 0 = v := by
    rw [List.getD_eq_getElem s 0 hi]
    exact hmem _ (List.getElem_mem hi)
  rw [hgi]
  by_cases hi1 : (⌊q / 100 * ((s.length : ℚ) - 1)⌋).toNat + 1 < s.length
  · rw [List.getD_eq_getElem s v hi1, hmem _ (List.getElem_mem hi1)]
    ring
  · rw [List.getD_eq_default s v (by omega)]
    ring

/-- Pointwise-constant grids. -/
def IsConst (g : Img) (v : ℕ) : Prop := ∀ y x c, g.pix y x c = v

theorem chanVals_all_const {g : Img} {v : ℕ} (hc : IsConst g v) (c : ℕ) :
    ∀ a ∈ chanVals g c, a = v := by
  intro a ha
  obtain ⟨y, x, _, _, rfl⟩ := mem_chanVals ha
  exact hc y x c

theorem chanVals_ne_nil {g : Img} (hH : 0 < g.H) (hW : 0 < g.W) (c : ℕ) :
    chanVals g c ≠ [] := by
  intro h
  have := chanVals_length g c
  rw [h] at this
  simp at this
  omega

theorem meanL_const {l : List ℕ} {v : ℕ} (hne : l ≠ []) (hall : ∀ a ∈ l, a = v) :
    meanL l = (v : ℚ) := by
  unfold meanL
  have hm : l.map (fun a => (Nat.cast a : ℚ)) = l.map (fun _ => (v : ℚ)) :=
    List.map_congr_left (fun a ha => by rw [hall a ha])
  rw [hm, List.map_const', List.sum_replicate, nsmul_eq_mul]
  have hl0 : (l.length : ℚ) ≠ 0 := by
    simpa using fun h => hne (List.length_eq_zero.1 h)
  field_simp

theorem stretch_const {g : Img} {v : ℕ} (hv : v ≤ 255) (hc : IsConst g v) :
    IsConst (stretchChannels g) v := by
  intro y x c
  unfold stretchChannels
  dsimp only
  by_cases hE : chanVals g c = []
  · rw [hE, percentileQ_nil, percentileQ_nil, if_neg (lt_irrefl (0:ℚ)), hc y x c,
      truncU8_natCast v hv]
  · rw [percentileQ_const hE (chanVals_all_const hc c) (by norm_num) (by norm_num),
      percentileQ_const hE (chanVals_all_const hc c) (by norm_num) (by norm_num),
      if_neg (lt_irrefl ((v:ℚ))), hc y x c, truncU8_natCast v hv]

theorem hsv_of_gray128 : hsvHue 128 128 128 = 0 ∧ hsvSat 128 128 128 = 0 ∧
    hsvVal 128 128 128 = 128 := by decide

theorem truncU8_zero : truncU8 0 = 0 := rfl

theorem hsv2bgrPix_szero (h v : ℕ) : hsv2bgrPix h 0 v = (v, v, v) := by
  unfold hsv2bgrPix
  rw [if_pos rfl]

theorem satBoost_const128 {g : Img} (m : ℚ) (hc : IsConst g 128) :
    IsConst (satBoostStage g m) 128 := by
  intro y x c
  unfold satBoostStage hsv2bgr
  dsimp only
  have hpix : ∀ k, (bgr2hsv g).pix y x k =
      (if k = 0 then 0 else if k = 1 then 0 else 128) := by
    intro k
    unfold bgr2hsv
    dsimp only
    rw [hc y x 0, hc y x 1, hc y x 2]
    have h1 : hsvSat 128 128 128 = 0 := hsv_of_gray128.2.1
    have h0 : hsvHue 128 128 128 = 0 := hsv_of_gray128.1
    have h2 : hsvVal 128 128 128 = 128 := hsv_of_gray128.2.2
    split
    · rw [h0]
    · split
      · rw [h1]
      · rw [h2]
  rw [hpix 0, hpix 1, hpix 2]
  norm_num
  rw [truncU8_zero, hsv2bgrPix_szero]
  split
  · rfl
  · split <;> rfl

end AstroSlide

namespace AstroSlide

theorem swapRB_const {g : Img} {v : ℕ} (h : IsConst g v) : IsConst (swapRB g) v :=
  fun y x c => h y x (2 - c)

theorem runNLM_const (ops : CVOps)
    (hnlm : ∀ h hcol tw sw H' W' v, v ≤ 255 →
      ops.nlm h hcol tw sw H' W' (fun _ _ _ => v) = fun _ _ _ => v)
    {g : Img} (hc : IsConst g 128) (h hcol tw sw : ℕ) :
    IsConst (runNLM ops h hcol tw sw g) 128 := by
  intro y x c
  unfold runNLM
  dsimp only
  have hfun : g.pix = fun _ _ _ => (128 : ℕ) :=
    funext fun a => funext fun b => funext fun d => hc a b d
  rw [hfun, hnlm h hcol tw sw g.H g.W 128 (by norm_num)]

/-- The `general` pipeline maps the uniform mid-gray grid to itself: the
percentile stretch degenerates to the identity (equal bounds), gray pixels
have zero saturation so the boost is a no-op, and non-local-means denoising
preserves constant images (hypothesis `hnlm`). -/
theorem general_const128 (ops : CVOps) (H W : ℕ)
    (hnlm : ∀ h hcol tw sw H' W' v, v ≤ 255 →
      ops.nlm h hcol tw sw H' W' (fun _ _ _ => v) = fun _ _ _ => v) :
    IsConst (enhance_general ops (constImg H W 128)) 128 := by
  have hconst : IsConst (constImg H W 128) 128 := fun _ _ _ => rfl
  unfold enhance_general
  exact swapRB_const (runNLM_const ops hnlm
    (satBoost_const128 _ (stretch_const (by norm_num) (swapRB_const hconst))) 2 2 7 15)

/-- Per-channel mean of a grid (the observable of the all-gray
end-to-end scenario). -/
def meanChannel (g : Img) (c : ℕ) : ℚ := meanL (chanVals g c)

/-- Claim C7: a channel whose low and high stretch percentiles coincide is
left unchanged by the per-channel percentile stretch (no failure); and the
uniform all-(128,128,128) grid run through the `general` preset at
intensity 1.0 keeps every per-channel mean at 128 and every pixel's
saturation at 0 (hypothesis `hnlm`: non-local means preserves uint8
constant images). -/
theorem claim_C7_percentile_stretch (ops : CVOps) (g : Img) (c : ℕ)
    (hg : g.wf) (hc : c < 3)
    (hpq : percentileQ (chanVals g c) (1/10) = percentileQ (chanVals g c) (999/10))
    (H W : ℕ) (hH : 0 < H) (hW : 0 < W)
    (hnlm : ∀ h hcol tw sw H' W' v, v ≤ 255 →
      ops.nlm h hcol tw sw H' W' (fun _ _ _ => v) = fun _ _ _ => v) :
    (∀ y < g.H, ∀ x < g.W, (stretchChannels g).pix y x c = g.pix y x c) ∧
    (∀ c' < 3,
      meanChannel (enhanceRun ops (constImg H W 128) "general" 1 false) c' = 128) ∧
    (∀ y < H, ∀ x < W,
      hsvSat ((enhanceRun ops (constImg H W 128) "general" 1 false).pix y x 0)
        ((enhanceRun ops (constImg H W 128) "general" 1 false).pix y x 1)
        ((enhanceRun ops (constImg H W 128) "general" 1 false).pix y x 2) = 0) := by
  have hconstOut : IsConst (enhanceRun ops (constImg H W 128) "general" 1 false) 128 := by
    rw [enhanceRun_one]
    have hdisp : presetApply ops "general" (constImg H W 128) =
        enhance_general ops (constImg H W 128) := by
      unfold presetApply
      simp
    rw [hdisp]
    exact general_const128 ops H W hnlm
  refine ⟨?_, ?_, ?_⟩
  · intro y hy x hx
    unfold stretchChannels
    dsimp only
    rw [if_neg (by rw [hpq]; exact lt_irrefl _), truncU8_natCast _ (hg y hy x hx c hc)]
  · intro c' _
    unfold meanChannel
    apply meanL_const
    · apply chanVals_ne_nil
      · rw [enhanceRun_H]
        exact hH
      · rw [enhanceRun_W]
        exact hW
    · exact chanVals_all_const hconstOut c'
  · intro y _ x _
    rw [hconstOut y x 0, hconstOut y x 1, hconstOut y x 2]
    exact hsv_of_gray128.2.1

/-- Witness for C7: a concrete constant grid whose percentile bounds
coincide, with the concrete operator instance. -/
theorem claim_C7_percentile_stretch_witness :
    (constImg 2 2 9).wf ∧
    percentileQ (chanVals (constImg 2 2 9) 0) (1/10) =
      percentileQ (chanVals (constImg 2 2 9) 0) (999/10) ∧
    (∀ c' < 3, meanChannel (enhanceRun idOps (constImg 4 4 128) "general" 1 false) c' =
      128) := by
  have hnlm : ∀ h hcol tw sw H' W' v, v ≤ 255 →
      idOps.nlm h hcol tw sw H' W' (fun _ _ _ => v) = fun _ _ _ => v := by
    intro h hcol tw sw H' W' v hv
    funext y x c
    show min v 255 = v
    omega
  have hpq : percentileQ (chanVals (constImg 2 2 9) 0) (1/10) =
      percentileQ (chanVals (constImg 2 2 9) 0) (999/10) := by
    have hne : chanVals (constImg 2 2 9) 0 ≠ [] :=
      chanVals_ne_nil (g := constImg 2 2 9) (by norm_num [constImg])
        (by norm_num [constImg]) 0
    have hall : ∀ a ∈ chanVals (constImg 2 2 9) 0, a = 9 :=
      chanVals_all_const (fun _ _ _ => rfl) 0
    rw [percentileQ_const hne hall (by norm_num) (by norm_num),
      percentileQ_const hne hall (by norm_num) (by norm_num)]
  refine ⟨by decide, hpq, ?_⟩
  exact (claim_C7_percentile_stretch idOps (constImg 2 2 9) 0 (by decide) (by norm_num)
    hpq 4 4 (by norm_num) (by norm_num) hnlm).2.1

end AstroSlide

namespace AstroSlide

/-! ### Claim C5: spike-layer composition semantics -/

/-- Whether one bounds-checked store targets the in-bounds pixel `(y,x)`. -/
def hits (H W : ℕ) (y x : ℕ) (w : (ℤ × ℤ) × (ℕ → ℚ)) : Bool :=
  decide (0 ≤ w.1.2 ∧ w.1.2 < (W : ℤ) ∧ 0 ≤ w.1.1 ∧ w.1.1 < (H : ℤ) ∧
    y = w.1.1.toNat ∧ x = w.1.2.toNat)

/-- Replay a list of stores (position, per-channel value) through
`spikeWrite`. -/
def applyWrites (H W : ℕ) (ws : List ((ℤ × ℤ) × (ℕ → ℚ)))
    (L : ℕ → ℕ → ℕ → ℚ) : ℕ → ℕ → ℕ → ℚ :=
  ws.foldl (fun L w => spikeWrite H W w.1.1 w.1.2 w.2 L) L

/-- The list of stores one star's four rays perform, in loop order:
`(py, px)` and the Gaussian-falloff, width-tapered, colour-scaled value. -/
def rayWrites (ops : CVOps) (cx cy aL : ℕ) (sI : ℚ) (color : ℕ → ℚ) :
    List ((ℤ × ℤ) × (ℕ → ℚ)) :=
  (List.range 4).flatMap (fun k =>
    (List.range aL).map (fun d0 =>
      let d := d0 + 1
      let dir := spikeDir k d
      (((cy : ℤ) + dir.2, (cx : ℤ) + dir.1),
        fun c => color c * (ops.expQ (-(d * d : ℚ) / ((aL * aL : ℚ) / 4)) *
          (1 - (d : ℚ) / (aL : ℚ) * (7/10)) * sI))))

/-- All stores of all qualifying stars, in loop order. -/
def allSpikeWrites (ops : CVOps) (img : Img) (sl sb τ : ℚ)
    (contours : List ContourInfo) : List ((ℤ × ℤ) × (ℕ → ℚ)) :=
  contours.flatMap (fun ci =>
    match starContribData img sl sb τ ci with
    | none => []
    | some (cx, cy, aL, sI, color) => rayWrites ops cx cy aL sI color)

theorem spikeWrite_pix (H W : ℕ) (py px : ℤ) (v : ℕ → ℚ)
    (L : ℕ → ℕ → ℕ → ℚ) (y x c : ℕ) :
    spikeWrite H W py px v L y x c =
      if hits H W y x ((py, px), v) then max (L y x c) (v c) else L y x c := by
  unfold spikeWrite
  by_cases hb : 0 ≤ px ∧ px < (W : ℤ) ∧ 0 ≤ py ∧ py < (H : ℤ)
  · rw [if_pos hb]
    by_cases hyx : y = py.toNat ∧ x = px.toNat
    · have hh : hits H W y x ((py, px), v) = true := by
        unfold hits
        simp only [decide_eq_true_eq]
        exact ⟨hb.1, hb.2.1, hb.2.2.1, hb.2.2.2, hyx.1, hyx.2⟩
      rw [hh]
      show (if y = py.toNat ∧ x = px.toNat then max (L y x c) (v c) else L y x c) =
        if true = true then max (L y x c) (v c) else L y x c
      rw [if_pos hyx, if_pos rfl]
    · have hh : hits H W y x ((py, px), v) = false := by
        unfold hits
        simp only [decide_eq_false_iff_not]
        intro hcon
        exact hyx ⟨hcon.2.2.2.2.1, hcon.2.2.2.2.2⟩
      rw [hh]
      show (if y = py.toNat ∧ x = px.toNat then max (L y x c) (v c) else L y x c) =
        if false = true then max (L y x c) (v c) else L y x c
      rw [if_neg hyx, if_neg (by simp)]
  · rw [if_neg hb]
    have hh : hits H W y x ((py, px), v) = false := by
      unfold hits
      simp only [decide_eq_false_iff_not]
      intro hcon
      exact hb ⟨hcon.1, hcon.2.1, hcon.2.2.1, hcon.2.2.2.1⟩
    rw [hh, if_neg (by simp)]

/-- Replaying a list of `np.maximum` stores leaves, at each pixel, the
running maximum of the initial value and every value stored there: the
closed-form semantics of the spike-layer loop. -/
theorem applyWrites_pix (H W : ℕ) (y x c : ℕ) :
    ∀ (ws : List ((ℤ × ℤ) × (ℕ → ℚ))) (L : ℕ → ℕ → ℕ → ℚ),
      applyWrites H W ws L y x c =
        ((ws.filter (hits H W y x)).map (fun w => w.2 c)).foldl max (L y x c) := by
  intro ws
  induction ws with
  | nil => intro L; rfl
  | cons w t ih =>
    intro L
    rw [show applyWrites H W (w :: t) L =
      applyWrites H W t (spikeWrite H W w.1.1 w.1.2 w.2 L) from rfl, ih]
    by_cases hw : hits H W y x w = true
    · rw [List.filter_cons_of_pos hw, List.map_cons, List.foldl_cons]
      congr 1
      rw [spikeWrite_pix, if_pos hw]
    · rw [List.filter_cons_of_neg (by simp [hw])]
      congr 1
      rw [spikeWrite_pix, if_neg (by simp [hw])]

theorem applyWrites_append (H W : ℕ) (a b : List ((ℤ × ℤ) × (ℕ → ℚ)))
    (L : ℕ → ℕ → ℕ → ℚ) :
    applyWrites H W (a ++ b) L = applyWrites H W b (applyWrites H W a L) := by
  unfold applyWrites
  rw [List.foldl_append]

theorem applyWrites_flatMap {α : Type} (H W : ℕ) (f : α → List ((ℤ × ℤ) × (ℕ → ℚ))) :
    ∀ (l : List α) (L : ℕ → ℕ → ℕ → ℚ),
      applyWrites H W (l.flatMap f) L =
        l.foldl (fun L a => applyWrites H W (f a) L) L := by
  intro l
  induction l with
  | nil => intro L; rfl
  | cons a t ih =>
    intro L
    rw [List.flatMap_cons, applyWrites_append, ih, List.foldl_cons]

theorem applyWrites_map {α : Type} (H W : ℕ) (f : α → (ℤ × ℤ) × (ℕ → ℚ))
    (l : List α) (L : ℕ → ℕ → ℕ → ℚ) :
    applyWrites H W (l.map f) L =
      l.foldl (fun L a => spikeWrite H W (f a).1.1 (f a).1.2 (f a).2 L) L := by
  unfold applyWrites
  rw [List.foldl_map]

/-- The two inner loops of one star are the replay of its `rayWrites`. -/
theorem starRaysWrite_eq (ops : CVOps) (H W cx cy aL : ℕ) (sI : ℚ)
    (color : ℕ → ℚ) (L : ℕ → ℕ → ℕ → ℚ) :
    starRaysWrite ops H W cx cy aL sI color L =
      applyWrites H W (rayWrites ops cx cy aL sI color) L := by
  unfold starRaysWrite rayWrites
  rw [applyWrites_flatMap]
  have hfun : (fun (L : ℕ → ℕ → ℕ → ℚ) (k : ℕ) =>
      applyWrites H W ((List.range aL).map (fun d0 =>
        let d := d0 + 1
        let dir := spikeDir k d
        (((cy : ℤ) + dir.2, (cx : ℤ) + dir.1),
          fun c => color c * (ops.expQ (-(d * d : ℚ) / ((aL * aL : ℚ) / 4)) *
            (1 - (d : ℚ) / (aL : ℚ) * (7/10)) * sI)))) L) =
      (fun (L : ℕ → ℕ → ℕ → ℚ) (k : ℕ) =>
        (List.range aL).foldl (fun L d0 =>
          let d := d0 + 1
          let dir := spikeDir k d
          let px := (cx : ℤ) + dir.1
          let py := (cy : ℤ) + dir.2
          let falloff := ops.expQ (-(d * d : ℚ) / ((aL * aL : ℚ) / 4))
          let width_factor := 1 - (d : ℚ) / (aL : ℚ) * (7/10)
          let intens := falloff * width_factor * sI
          spikeWrite H W py px (fun c => color c * intens) L) L) := by
    funext L' k
    rw [applyWrites_map]
  rw [hfun]

/-- The whole spike layer is the replay of every star's stores from the
zero layer. -/
theorem spikeLayerPix_eq (ops : CVOps) (img : Img) (sl sb τ : ℚ) :
    ∀ (contours : List ContourInfo),
      spikeLayerPix ops img sl sb τ contours =
        applyWrites img.H img.W (allSpikeWrites ops img sl sb τ contours)
          (fun _ _ _ => 0) := by
  have aux : ∀ (contours : List ContourInfo) (L : ℕ → ℕ → ℕ → ℚ),
      contours.foldl (fun L ci =>
        match starContribData img sl sb τ ci with
        | none => L
        | some (cx, cy, aL, sI, color) =>
          starRaysWrite ops img.H img.W cx cy aL sI color L) L =
      applyWrites img.H img.W (allSpikeWrites ops img sl sb τ contours) L := by
    intro contours
    induction contours with
    | nil => intro L; rfl
    | cons ci t ih =>
      intro L
      rw [List.foldl_cons]
      unfold allSpikeWrites
      rw [List.flatMap_cons, applyWrites_append]
      show _ = applyWrites img.H img.W (allSpikeWrites ops img sl sb τ t) _
      rcases h : starContribData img sl sb τ ci with - | ⟨cx, cy, aL, sI, color⟩
      · exact ih _
      · rw [← starRaysWrite_eq]
        exact ih _
  intro contours
  exact aux contours _

end AstroSlide

namespace AstroSlide

/-- Claim C5 (amended): in `add_star_spikes`, each qualifying bright
component's rays are rasterized with Gaussian falloff and linear taper
into a single spike layer, and the blurred spike layer is added to the
image and clipped to the valid range; but the per-pixel composition into
the layer is `np.maximum`, not addition: at each pixel the layer holds the
MAXIMUM of all ray contributions landing there (where rays from two
different stars cover the same pixel, the larger contribution wins —
contributions do not sum). -/
theorem claim_C5_spike_max_composition (ops : CVOps) (img : Img) (sl sb tf : ℚ)
    (hne : spikeContours ops img tf ≠ []) :
    add_star_spikes ops img sl sb tf =
      (⟨img.H, img.W, fun y x c =>
        truncU8 ((img.pix y x c : ℚ) +
          (blurFI gk3 (⟨img.H, img.W,
            spikeLayerPix ops img sl sb (spikeThreshold ops img tf)
              (spikeContours ops img tf)⟩ : FImg)).pix y x c)⟩ : Img) ∧
    (∀ y x c, spikeLayerPix ops img sl sb (spikeThreshold ops img tf)
        (spikeContours ops img tf) y x c =
      (((allSpikeWrites ops img sl sb (spikeThreshold ops img tf)
          (spikeContours ops img tf)).filter (hits img.H img.W y x)).map
        (fun w => w.2 c)).foldl max 0) := by
  constructor
  · unfold add_star_spikes
    dsimp only
    rw [if_neg (fun h => hne (List.length_eq_zero.1 h))]
  · intro y x c
    rw [spikeLayerPix_eq, applyWrites_pix]

end AstroSlide

namespace AstroSlide

/-! #### Concrete counterexample data for C5

A 25×25 frame with two bright 3×3 squares centred at `(10,10)` and
`(10,14)` (rows 9–11, columns 9–11 and 13–15).  `cxStarA`/`cxStarB` are
the contour data `cv2.findContours` + `cv2.moments` + `cv2.contourArea`
produce for these two squares: boundary-polygon moments `m00 = 4`,
`m10 = 4·cx`, `m01 = 4·cy`, area 4 (Green's formula on the 2×2 boundary
square) and peak gray 255; `cxOps` returns exactly these contours and
interprets `exp` by the rational `x ↦ 1/(1−x)` (positive and increasing on
`x ≤ 0`, like the real exponential).  With `spike_length = 1/5` both stars
get `actual_length = 3`, and at distance 3 star A's first ray (+45°) and
star B's second ray (135°) both land on pixel `(12,12)`. -/

/-- The two-square counterexample frame. -/
def cxImg : Img :=
  ⟨25, 25, fun y x _ =>
    if (9 ≤ y ∧ y ≤ 11) ∧ ((9 ≤ x ∧ x ≤ 11) ∨ (13 ≤ x ∧ x ≤ 15)) then 255 else 0⟩

/-- Contour data of the square at centroid `(10,10)`. -/
def cxStarA : ContourInfo := ⟨4, 40, 40, 4, 255⟩

/-- Contour data of the square at centroid `(10,14)`. -/
def cxStarB : ContourInfo := ⟨4, 56, 40, 4, 255⟩

/-- Concrete operator instance for the counterexample. -/
def cxOps : CVOps := { idOps with findContours := fun _ _ _ => [cxStarA, cxStarB] }

/-- Both stars sample pure white, so their spike colour is 255 on every
channel. -/
def cxColor : ℕ → ℚ := fun _ => 255

theorem cx_diag1 : spikeDiag 1 = 0 := by norm_num [spikeDiag, Nat.sqrt]

theorem cx_diag2 : spikeDiag 2 = 1 := by norm_num [spikeDiag, Nat.sqrt]

theorem cx_diag3 : spikeDiag 3 = 2 := by norm_num [spikeDiag, Nat.sqrt]

theorem cx_starA_data :
    starContribData cxImg (1/5) 1 (153/2) cxStarA = some (10, 10, 3, 1, cxColor) := by
  unfold starContribData
  rw [if_neg (by norm_num [cxStarA])]
  dsimp only
  rw [if_neg (by norm_num [cxStarA])]
  have hcx : (pyInt (cxStarA.m10 / cxStarA.m00)).toNat = 10 := by
    norm_num [cxStarA, pyInt]
    rfl
  have hcy : (pyInt (cxStarA.m01 / cxStarA.m00)).toNat = 10 := by
    norm_num [cxStarA, pyInt]
    rfl
  have hbf : clip01 (((cxStarA.peak : ℚ) - 153/2) / (255 - 153/2)) = 1 := by
    norm_num [cxStarA, clip01]
  have h36 : (⌊(9:ℚ) * cxStarA.area⌋).toNat = 36 := by
    norm_num [cxStarA]
    rfl
  have hbl : max 15 (Nat.sqrt (⌊9 * cxStarA.area⌋).toNat) = 15 := by
    rw [h36]
    norm_num [Nat.sqrt]
  rw [hcx, hcy, hbf, hbl]
  have haL : (pyInt ((15 : ℕ) * (1/5 : ℚ) * (1/2 + 1 * (1/2)))).toNat = 3 := by
    norm_num [pyInt]
    rfl
  rw [haL]
  have hcol : (fun c => (cxImg.pix 10 10 c : ℚ) / 255 * (1 * 1) * 255) = cxColor := by
    funext c
    norm_num [cxImg, cxColor]
  rw [show (1 : ℚ) * 1 = 1 by norm_num]
  rw [show (fun c => (cxImg.pix 10 10 c : ℚ) / 255 * 1 * 255) = cxColor by
    funext c
    norm_num [cxImg, cxColor]]

end AstroSlide

namespace AstroSlide

theorem cx_starB_data :
    starContribData cxImg (1/5) 1 (153/2) cxStarB = some (14, 10, 3, 1, cxColor) := by
  unfold starContribData
  rw [if_neg (by norm_num [cxStarB])]
  dsimp only
  rw [if_neg (by norm_num [cxStarB])]
  have hcx : (pyInt (cxStarB.m10 / cxStarB.m00)).toNat = 14 := by
    norm_num [cxStarB, pyInt]
    rfl
  have hcy : (pyInt (cxStarB.m01 / cxStarB.m00)).toNat = 10 := by
    norm_num [cxStarB, pyInt]
    rfl
  have hbf : clip01 (((cxStarB.peak : ℚ) - 153/2) / (255 - 153/2)) = 1 := by
    norm_num [cxStarB, clip01]
  have h36 : (⌊(9:ℚ) * cxStarB.area⌋).toNat = 36 := by
    norm_num [cxStarB]
    rfl
  have hbl : max 15 (Nat.sqrt (⌊9 * cxStarB.area⌋).toNat) = 15 := by
    rw [h36]
    norm_num [Nat.sqrt]
  rw [hcx, hcy, hbf, hbl]
  have haL : (pyInt ((15 : ℕ) * (1/5 : ℚ) * (1/2 + 1 * (1/2)))).toNat = 3 := by
    norm_num [pyInt]
    rfl
  rw [haL]
  rw [show (1 : ℚ) * 1 = 1 by norm_num]
  rw [show (fun c => (cxImg.pix 10 14 c : ℚ) / 255 * 1 * 255) = cxColor by
    funext c
    norm_num [cxImg, cxColor]]

theorem cx_writes :
    allSpikeWrites cxOps cxImg (1/5) 1 (153/2) [cxStarA, cxStarB] =
      rayWrites cxOps 10 10 3 1 cxColor ++ rayWrites cxOps 14 10 3 1 cxColor := by
  unfold allSpikeWrites
  rw [List.flatMap_cons, List.flatMap_cons, List.flatMap_nil, cx_starA_data,
    cx_starB_data]
  simp

end AstroSlide

namespace AstroSlide

theorem cx_filterA :
    ((rayWrites cxOps 10 10 3 1 cxColor).filter (hits 25 25 12 12)).map
      (fun w => w.2 0) = [(153/10 : ℚ)] := by
  unfold rayWrites
  rw [show List.range 4 = [0,1,2,3] from rfl, show List.range 3 = [0,1,2] from rfl]
  norm_num [List.flatMap_cons, List.flatMap_nil, List.filter_cons, spikeDir,
    cx_diag1, cx_diag2, cx_diag3, hits, cxOps, idOps, cxColor, Int.toNat_ofNat]
  simp

end AstroSlide

namespace AstroSlide

theorem cx_filterB :
    ((rayWrites cxOps 14 10 3 1 cxColor).filter (hits 25 25 12 12)).map
      (fun w => w.2 0) = [(153/10 : ℚ)] := by
  unfold rayWrites
  rw [show List.range 4 = [0,1,2,3] from rfl, show List.range 3 = [0,1,2] from rfl]
  norm_num [List.flatMap_cons, List.flatMap_nil, List.filter_cons, spikeDir,
    cx_diag1, cx_diag2, cx_diag3, hits, cxOps, idOps, cxColor, Int.toNat_ofNat]
  simp

/-- Counterexample to C5 as stated: on the two-star frame `cxImg`, star A's
rays contribute exactly one store of value `153/10` at pixel `(12,12)`,
star B's rays likewise contribute exactly one store of value `153/10`
there, both positive — yet the spike layer holds `153/10` (the maximum),
not the sum `153/10 + 153/10`: overlapping contributions from two
different stars do not add. -/
theorem claim_C5_counterexample :
    spikeLayerPix cxOps cxImg (1/5) 1 (153/2) [cxStarA, cxStarB] 12 12 0 = 153/10 ∧
    ((rayWrites cxOps 10 10 3 1 cxColor).filter (hits 25 25 12 12)).map
      (fun w => w.2 0) = [(153/10 : ℚ)] ∧
    ((rayWrites cxOps 14 10 3 1 cxColor).filter (hits 25 25 12 12)).map
      (fun w => w.2 0) = [(153/10 : ℚ)] ∧
    (0 : ℚ) < 153/10 ∧
    spikeLayerPix cxOps cxImg (1/5) 1 (153/2) [cxStarA, cxStarB] 12 12 0 ≠
      153/10 + 153/10 := by
  have hH : cxImg.H = 25 := rfl
  have hW : cxImg.W = 25 := rfl
  have hlayer : spikeLayerPix cxOps cxImg (1/5) 1 (153/2) [cxStarA, cxStarB]
      12 12 0 = 153/10 := by
    rw [spikeLayerPix_eq, applyWrites_pix, hH, hW, cx_writes, List.filter_append,
      List.map_append, cx_filterA, cx_filterB]
    norm_num [List.foldl, max_def]
  exact ⟨hlayer, cx_filterA, cx_filterB, by norm_num, by rw [hlayer]; norm_num⟩

end AstroSlide

namespace AstroSlide

/-- Witness for the amended C5 theorem at the concrete two-star frame with
the orchestration's spike constants. -/
theorem claim_C5_spike_max_composition_witness :
    spikeContours cxOps cxImg 2 ≠ [] ∧
    spikeLayerPix cxOps cxImg (1/2) (3/5) (spikeThreshold cxOps cxImg 2)
        (spikeContours cxOps cxImg 2) 0 0 0 =
      (((allSpikeWrites cxOps cxImg (1/2) (3/5) (spikeThreshold cxOps cxImg 2)
          (spikeContours cxOps cxImg 2)).filter (hits cxImg.H cxImg.W 0 0)).map
        (fun w => w.2 0)).foldl max 0 := by
  have hne : spikeContours cxOps cxImg 2 ≠ [] := by
    have h : spikeContours cxOps cxImg 2 = [cxStarA, cxStarB] := rfl
    rw [h]
    simp
  exact ⟨hne, (claim_C5_spike_max_composition cxOps cxImg (1/2) (3/5) 2 hne).2 0 0 0⟩

end AstroSlide
